import Mathlib

/-!
# A shallow embedding of the `sqlz` statement builder

The Go package `sqlz` accumulates a statement descriptor (`Info`) through chained
configuration calls and renders it into SQL text with `?` placeholders and a parallel
argument list (`formatSQL`, `buildWhere`, `buildData`).

Modelling decisions:

* Go maps (`where`, `orderBy`, a mapping payload) are association lists whose list order
  is the order in which the `range` loop visits the entries.
* `interface{}` values are the inductive type `Value`; the payload of INSERT/UPDATE, which
  the code inspects by reflection, is the inductive type `Payload`.
* A Go `error` result and a run-time panic are the two constructors of `Failure`; every
  rendering function returns `Except Failure Info`.
* `uint64` fields are natural numbers; the code only stores and prints them.
* The database is an `Executor` of opaque functions; `Do`, `All` and `First` return a `Run`:
  the client after the call, the calls made on the connection and the transaction, and
  the outcome (returned values or a panic). A `defer` is applied after the body.
* `ToAnySlice` of the package `utils` takes a `SliceArg`, which tells a nil slice, a
  non-nil slice and a value of any other kind apart.
-/

set_option linter.unusedVariables false

namespace Sqlz

/-! ## Values -/

/-- A dynamically typed Go value (`interface{}`) as it occurs in filters and arguments. -/
inductive Value where
  /-- the nil interface -/
  | null
  | str (s : String)
  /-- a signed integer (`int`, `int64`, ...) -/
  | int (i : Int)
  /-- an unsigned integer (`uint`, `uint64`, ...) -/
  | uint (n : Nat)
  /-- a floating point number, carried as its IEEE-754 bit pattern -/
  | float (bits : Nat)
  | bool (b : Bool)
  /-- a `[]interface{}` -/
  | seq (xs : List Value)
  /-- a slice of any other static type (`[]int`, `[]string`, ...) -/
  | slice (xs : List Value)

/-- The value of a struct field as `reflect` sees it, by kind. -/
inductive FieldValue where
  | str (s : String)
  /-- kinds Int, Int8, Int16, Int32, Int64 -/
  | int (i : Int)
  /-- kinds Uint, Uint8, Uint16, Uint32, Uint64 -/
  | uint (n : Nat)
  /-- kinds Float32, Float64, as the bit pattern of the `float64` that `Float()` returns -/
  | float (bits : Nat)
  | bool (b : Bool)
  /-- any other kind; `typeName` is what `Type().String()` prints -/
  | other (typeName : String)

/-- One field of a struct: its name, the values of its `db` and `json` tags (the empty
string when the tag is absent, as `Tag.Get` returns) and its value. -/
structure Field where
  name : String
  db : String
  json : String
  value : FieldValue

/-- The payload handed to `Insert`/`Update`, by what reflection finds. -/
inductive Payload where
  /-- the nil interface -/
  | nil
  /-- a `map[string]interface{}`, entries in iteration order -/
  | strMap (entries : List (String × Value))
  /-- a map of any other type -/
  | otherMap
  /-- a struct, fields in declaration order -/
  | record (fields : List Field)
  /-- a non-nil pointer -/
  | ptr (elem : Payload)
  /-- a nil pointer -/
  | nilPtr
  /-- any other kind -/
  | other

/-- The test `data == nil` of `formatSQL`. -/
def Payload.isNil : Payload → Bool
  | .nil => true
  | _ => false

/-- How a rendering call can fail: a returned `error`, or a run-time panic. -/
inductive Failure where
  | error (msg : String)
  | panic (msg : String)

/-! ## The `strings` and `fmt` functions the renderer uses -/

/-- The predicate `unicode.IsSpace`. -/
def isSpace (c : Char) : Bool :=
  let n := c.toNat
  n == 0x09 || n == 0x0A || n == 0x0B || n == 0x0C || n == 0x0D || n == 0x20 ||
  n == 0x85 || n == 0xA0 || n == 0x1680 || (0x2000 ≤ n && n ≤ 0x200A) ||
  n == 0x2028 || n == 0x2029 || n == 0x202F || n == 0x205F || n == 0x3000

/-- The scan of `strings.Fields`: `cur` is the field being read, in reverse. -/
def fieldsGo : List Char → List Char → List String
  | cur, [] => if cur.isEmpty then [] else [String.mk cur.reverse]
  | cur, c :: cs =>
    if isSpace c then
      if cur.isEmpty then fieldsGo [] cs else String.mk cur.reverse :: fieldsGo [] cs
    else fieldsGo (c :: cur) cs

/-- The function `strings.Fields`: the maximal runs of non-space characters. -/
def stringsFields (s : String) : List String :=
  fieldsGo [] s.data

/-- The function `unicode.ToUpper` on the runes whose upper case is an ASCII letter: the ASCII lower
case letters, U+0131 (dotless i, upper case `I`) and U+017F (long s, upper case `S`).
Every other rune is left as it is; its upper case is never an ASCII letter, so the
comparison of an upper-cased string with an ASCII string is not affected. -/
def toUpperRune (c : Char) : Char :=
  let n := c.toNat
  if 0x61 ≤ n && n ≤ 0x7A then Char.ofNat (n - 0x20)
  else if n == 0x131 then 'I'
  else if n == 0x17F then 'S'
  else c

/-- The function `strings.ToUpper`. -/
def stringsToUpper (s : String) : String :=
  String.mk (s.data.map toUpperRune)

/-- The function `strings.Join`. -/
def stringsJoin : List String → String → String
  | [], _ => ""
  | [a], _ => a
  | a :: b :: rest, sep => a ++ sep ++ stringsJoin (b :: rest) sep

/-- The function `strings.Repeat`. -/
def stringsRepeat (s : String) : Nat → String
  | 0 => ""
  | n + 1 => s ++ stringsRepeat s n

/-- The verb `%d` of `fmt.Sprintf` on an unsigned integer. -/
def fmtUint (n : Nat) : String :=
  toString n

/-- The slice expression `qs[0 : len(qs)-1]` on a non-empty string. -/
def dropLastChar (s : String) : String :=
  String.mk s.data.dropLast

/-! ## The statement descriptor and the configuration calls -/

/-- Statement kind SELECT. -/
abbrev SELECT : Nat := 1
/-- Statement kind UPDATE. -/
abbrev UPDATE : Nat := 2
/-- Statement kind INSERT. -/
abbrev INSERT : Nat := 3
/-- Statement kind DELETE. -/
abbrev DELETE : Nat := 4

/-- The statement descriptor `Info`. The zero value of every field is its default, so
`({} : Info)` is the descriptor that `NewDbByConn` and `clear` create. -/
structure Info where
  table : String := ""
  sql : String := ""
  args : List Value := []
  sType : Nat := 0
  data : Payload := Payload.nil
  where_ : List (String × Value) := []
  columns : List String := []
  limit : Nat := 0
  offset : Nat := 0
  orderBy : List (String × Bool) := []
  distinct : Bool := false

/-- The method `Table`. -/
def Table (i : Info) (table : String) : Info :=
  { i with table := table }

/-- The method `Select`. -/
def Select (i : Info) (columns : List String) (distinct : Bool) : Info :=
  let i := { i with sType := SELECT }
  if columns.length > 0 then { i with columns := columns, distinct := distinct }
  else { i with distinct := false }

/-- The method `Insert`. -/
def Insert (i : Info) (data : Payload) : Info :=
  { i with sType := INSERT, data := data }

/-- The method `Update`. -/
def Update (i : Info) (data : Payload) : Info :=
  { i with sType := UPDATE, data := data }

/-- The method `Delete`. -/
def Delete (i : Info) : Info :=
  { i with sType := DELETE }

/-- The method `Where`. -/
def Where (i : Info) (w : List (String × Value)) : Info :=
  if w.length > 0 then { i with where_ := w } else i

/-- The method `Limit`. -/
def Limit (i : Info) (limit : Nat) : Info :=
  { i with limit := limit }

/-- The method `Offset`. -/
def Offset (i : Info) (offset : Nat) : Info :=
  { i with offset := offset }

/-- The map assignment `m[col] = asc` on an association list: an existing key keeps its
place, a new key goes to the end. -/
def mapSet : List (String × Bool) → String → Bool → List (String × Bool)
  | [], col, asc => [(col, asc)]
  | (k, v) :: rest, col, asc =>
    if k = col then (k, asc) :: rest else (k, v) :: mapSet rest col asc

/-- The method `OrderBy`. -/
def OrderBy (i : Info) (col : String) (asc : Bool) : Info :=
  { i with orderBy := mapSet i.orderBy col asc }

/-! ## Rendering -/

/-- The operator of a filter key whose fields are `ktmp`: `mark := "="`, replaced by
`ktmp[1]` when `len(ktmp) == 2`. -/
def keyMark (ktmp : List String) : String :=
  match ktmp with
  | [_, m] => m
  | _ => "="

/-- One iteration of the `range` loop of `buildWhere` over the filters. `list` and `args`
are the fragment list and `t.Info.args` before the iteration; the result is the pair
after it. -/
def whereStep (list : List String) (args : List Value) (k : String) (v : Value) :
    Except Failure (List String × List Value) :=
  let ktmp := stringsFields k
  let mark := keyMark ktmp
  if stringsToUpper mark = "IN" then
    match v with
    | .seq inVal =>
      if inVal.length = 0 then
        .ok (list, args)
      else
        let qs := stringsRepeat "?," inVal.length
        let qs := dropLastChar qs
        let tmp := "`" ++ ktmp.headD "" ++ "` IN (" ++ qs ++ ")"
        -- `tmp` is not appended to `list`
        .ok (list, args ++ inVal)
    | _ => .error (.panic "interface conversion: value is not a []interface")
  else
    match ktmp with
    | [] => .error (.panic "index out of range [0] with length 0")
    | col :: _ =>
      let tmp := "`" ++ col ++ "` " ++ mark ++ " ?"
      .ok (list ++ [tmp], args ++ [v])

/-- The `range` loop of `buildWhere` over the filters, in iteration order. -/
def whereLoop : List (String × Value) → List String → List Value →
    Except Failure (List String × List Value)
  | [], list, args => .ok (list, args)
  | (k, v) :: rest, list, args =>
    match whereStep list args k v with
    | .ok (list', args') => whereLoop rest list' args'
    | .error e => .error e

/-- The `range` loop of `buildWhere` over `orderBy`, in iteration order. -/
def orderLoop : List (String × Bool) → List String → List String
  | [], tmp => tmp
  | (k, v) :: rest, tmp =>
    let m := if v then "ASC" else "DESC"
    orderLoop rest (tmp ++ ["`" ++ k ++ "` " ++ m])

/-- The method `buildWhere`: appends the WHERE, ORDER BY and LIMIT/OFFSET text to `sql` and the
filter values to `args`. -/
def buildWhere (i : Info) : Except Failure Info := do
  -- WHERE
  let i ←
    if i.where_.length > 0 then
      match whereLoop i.where_ [] i.args with
      | .ok (list, args) =>
        let where_ := stringsJoin list ","
        (.ok { i with args := args, sql := i.sql ++ (" WHERE " ++ where_) } : Except Failure Info)
      | .error e => .error e
    else .ok i
  -- ORDER BY
  let i :=
    if i.orderBy.length > 0 then
      let tmp := orderLoop i.orderBy []
      let oStr := stringsJoin tmp ","
      { i with sql := i.sql ++ (" ORDER BY " ++ oStr) }
    else i
  -- LIMIT
  let i :=
    if i.limit > 0 then
      let i := { i with sql := i.sql ++ (" LIMIT " ++ fmtUint i.limit) }
      if i.offset > 0 then { i with sql := i.sql ++ (" OFFSET " ++ fmtUint i.offset) } else i
    else i
  return i

/-- The argument appended for a struct field: the switch on `val.Kind()`. For a kind
outside the listed ones `val.String()` yields the text `<T Value>`. -/
def fieldArg : FieldValue → Value
  | .str s => .str s
  | .int n => .int n
  | .uint n => .uint n
  | .float b => .float b
  | .bool b => .bool b
  | .other typeName => .str ("<" ++ typeName ++ " Value>")

/-- The `range` loop of `buildData` over a `map[string]interface{}`. -/
def mapLoop (sType : Nat) : List (String × Value) → List String → List String → List Value →
    List String × List String × List Value
  | [], columnData, qm, args => (columnData, qm, args)
  | (key, val) :: rest, columnData, qm, args =>
    if sType = INSERT then
      mapLoop sType rest (columnData ++ ["`" ++ key ++ "`"]) (qm ++ ["?"]) (args ++ [val])
    else
      mapLoop sType rest (columnData ++ ["`" ++ key ++ "`=?"]) qm (args ++ [val])

/-- The loop of `buildData` over the fields of a struct. -/
def structLoop (sType : Nat) : List Field → List String → List String → List Value →
    List String × List String × List Value
  | [], columnData, qm, args => (columnData, qm, args)
  | field :: rest, columnData, qm, args =>
    let key := field.db
    let key := if key = "" then field.json else key
    if key = "" then structLoop sType rest columnData qm args
    else if sType = INSERT then
      structLoop sType rest (columnData ++ ["`" ++ key ++ "`"]) (qm ++ ["?"])
        (args ++ [fieldArg field.value])
    else
      structLoop sType rest (columnData ++ ["`" ++ key ++ "`=?"]) qm
        (args ++ [fieldArg field.value])

/-- The end of `buildData`: joins the columns and appends them to `sql`. -/
def finishData (i : Info) (r : List String × List String × List Value) : Info :=
  let columnStr := stringsJoin r.1 ","
  if i.sType = INSERT then
    let quotaStr := stringsJoin r.2.1 ","
    { i with args := r.2.2, sql := i.sql ++ (" (" ++ columnStr ++ ") VALUES (" ++ quotaStr ++ ")") }
  else
    { i with args := r.2.2, sql := i.sql ++ (" " ++ columnStr) }

/-- The method `buildData`: appends the column text of the payload to `sql` and its values to
`args`. A pointer is dereferenced once; the map branch asserts the type of `data` itself,
so a pointer to a map panics there. -/
def buildData (i : Info) : Except Failure Info :=
  match i.data with
  | .nil => .error (.panic "invalid memory address or nil pointer dereference")
  | .nilPtr => .error (.panic "reflect: call of reflect.Value.Type on zero Value")
  | .strMap entries => .ok (finishData i (mapLoop i.sType entries [] [] i.args))
  | .otherMap => .error (.panic "interface conversion: value is not a map[string]interface")
  | .record fields => .ok (finishData i (structLoop i.sType fields [] [] i.args))
  | .other => .error (.panic "data not map or struct")
  | .ptr (.record fields) => .ok (finishData i (structLoop i.sType fields [] [] i.args))
  | .ptr (.strMap _) =>
    .error (.panic "interface conversion: value is not a map[string]interface")
  | .ptr .otherMap =>
    .error (.panic "interface conversion: value is not a map[string]interface")
  | .ptr _ => .error (.panic "data not map or struct")

/-- The column list of a SELECT: `*`, or the quoted columns joined with commas and
prefixed with `DISTINCT ` when `distinct` is set. -/
def selectCols (i : Info) : String :=
  if i.columns.length > 0 then
    let tmp := i.columns.map (fun c => "`" ++ c ++ "`")
    let cols := stringsJoin tmp ","
    if i.distinct then "DISTINCT " ++ cols else cols
  else "*"

/-- The method `formatSQL`: the two presence checks, then the text of the statement by kind.
An unset kind (0) passes the checks and renders nothing. -/
def formatSQL (i : Info) : Except Failure Info :=
  if i.table = "" then .error (.error "table name empty")
  else if (i.sType = INSERT || i.sType = UPDATE) && i.data.isNil then
    .error (.error "insert/update no data")
  else if i.sType = SELECT then
    buildWhere { i with sql := i.sql ++ ("SELECT " ++ selectCols i ++ " FROM `" ++ i.table ++ "`") }
  else if i.sType = UPDATE then
    match buildData { i with sql := i.sql ++ ("UPDATE `" ++ i.table ++ "` SET") } with
    | .ok i => buildWhere i
    | .error e => .error e
  else if i.sType = INSERT then
    buildData { i with sql := i.sql ++ ("INSERT INTO `" ++ i.table ++ "`") }
  else if i.sType = DELETE then
    buildWhere { i with sql := i.sql ++ ("DELETE FROM `" ++ i.table ++ "`") }
  else .ok i

/-- The rendered text and arguments of a descriptor, or the failure. -/
def render (i : Info) : Except Failure (String × List Value) :=
  match formatSQL i with
  | .ok r => .ok (r.sql, r.args)
  | .error e => .error e

/-- The number of `?` characters of a text. -/
def countPlaceholders (s : String) : Nat :=
  s.data.count '?'

/-! ## Definitions used to state the properties -/

/-- The text of one sort key: the quoted column followed by `ASC` or `DESC`. -/
def orderByEntry (e : String × Bool) : String :=
  "`" ++ e.1 ++ "` " ++ (if e.2 then "ASC" else "DESC")

/-- The ORDER BY clause of a statement: empty when there is no sort key, otherwise the
keyword followed by the entries joined with commas. -/
def orderByClause (ob : List (String × Bool)) : String :=
  if ob.isEmpty then "" else " ORDER BY " ++ stringsJoin (ob.map orderByEntry) ","

/-- The LIMIT/OFFSET clause of a statement: LIMIT is written only for a positive limit,
OFFSET only after a LIMIT and for a positive offset. -/
def limitClause (l o : Nat) : String :=
  if l = 0 then ""
  else if o = 0 then " LIMIT " ++ fmtUint l
  else " LIMIT " ++ fmtUint l ++ " OFFSET " ++ fmtUint o

/-- The WHERE clause written for a non-empty filter mapping whose loop produced the
fragments `list`; nothing is written for an empty mapping. -/
def whereClause (w : List (String × Value)) (list : List String) : String :=
  if w.isEmpty then "" else " WHERE " ++ stringsJoin list ","

/-- Whether `s` is a single token: non-empty and free of white space. -/
def isToken (s : String) : Bool :=
  !s.data.isEmpty && s.data.all (fun ch => !isSpace ch)

/-- The column of a filter key: its first whitespace-separated token. -/
def keyColumn (k : String) : String :=
  (stringsFields k).headD ""

/-- The operator of a filter key: its second token when it has exactly two, else `=`. -/
def keyOperator (k : String) : String :=
  keyMark (stringsFields k)

/-- Whether the operator of a filter key is `IN`, compared as the code compares it. -/
def isInKey (k : String) : Bool :=
  stringsToUpper (keyOperator k) = "IN"

/-- The fragment of a non-IN filter: the quoted column, the operator and a placeholder. -/
def filterFragment (k : String) : String :=
  "`" ++ keyColumn k ++ "` " ++ keyOperator k ++ " ?"

/-- A filter entry on which the loop of `buildWhere` does not panic: an IN filter carries
a `[]interface{}`, any other filter has a key with at least one token. -/
def filterOk (e : String × Value) : Bool :=
  if isInKey e.1 then
    match e.2 with
    | .seq _ => true
    | _ => false
  else !(stringsFields e.1).isEmpty

/-- A filter mapping on which `buildWhere` does not panic. -/
def filtersOk (w : List (String × Value)) : Bool :=
  w.all filterOk

/-- Whether the text `s` ends with the text `suffix` (`strings.HasSuffix`). -/
def endsWith (s suffix : String) : Bool :=
  suffix.data.reverse.isPrefixOf s.data.reverse

/-- A character list whose last character, if there is one, is not a decimal digit. -/
def noTrailingDigit (s : List Char) : Prop :=
  ∀ c, s.getLast? = some c → c.isDigit = false

/-- A text whose last character is `c`. -/
def endsInChar (c : Char) (s : String) : Prop :=
  ∃ p, s.data = p ++ [c]

/-- The column name of a struct field: its `db` tag or, when that is empty, its `json`
tag. -/
def columnTag (f : Field) : String :=
  if f.db = "" then f.json else f.db

/-- The fields of a struct that carry a column name, in declaration order. -/
def taggedFields (fields : List Field) : List Field :=
  fields.filter (fun f => columnTag f != "")

/-- A payload on which `buildData` does not panic: a `map[string]interface{}`, a struct,
or a pointer to a struct. -/
def payloadOk : Payload → Bool
  | .strMap _ => true
  | .record _ => true
  | .ptr (.record _) => true
  | _ => false

/-- The `col=?` fragments and the values that an UPDATE payload contributes. -/
def updateSet : Payload → List String × List Value
  | .strMap entries => (entries.map (fun e => "`" ++ e.1 ++ "`=?"), entries.map Prod.snd)
  | .record fields =>
    ((taggedFields fields).map (fun f => "`" ++ columnTag f ++ "`=?"),
      (taggedFields fields).map (fun f => fieldArg f.value))
  | .ptr (.record fields) =>
    ((taggedFields fields).map (fun f => "`" ++ columnTag f ++ "`=?"),
      (taggedFields fields).map (fun f => fieldArg f.value))
  | _ => ([], [])

/-- Whether a text holds no `?`. -/
def noPlaceholder (s : String) : Bool :=
  countPlaceholders s = 0

/-- Whether the column names of a payload hold no `?`. -/
def payloadClean : Payload → Bool
  | .strMap entries => entries.all (fun e => noPlaceholder e.1)
  | .record fields => fields.all (fun f => noPlaceholder (columnTag f))
  | .ptr (.record fields) => fields.all (fun f => noPlaceholder (columnTag f))
  | _ => true

/-- Whether the table, column and operator tokens of a descriptor hold no `?`. -/
def tokensClean (i : Info) : Bool :=
  noPlaceholder i.table && i.columns.all noPlaceholder &&
  i.where_.all (fun e => noPlaceholder (keyColumn e.1) && noPlaceholder (keyOperator e.1)) &&
  i.orderBy.all (fun e => noPlaceholder e.1) && payloadClean i.data

/-- Whether every IN filter of a mapping carries the empty sequence. -/
def inFiltersEmpty (w : List (String × Value)) : Bool :=
  w.all (fun e => !isInKey e.1 ||
    match e.2 with
    | .seq [] => true
    | _ => false)

/-- The quoted columns and the values that an INSERT payload contributes. -/
def insertSet : Payload → List String × List Value
  | .strMap entries => (entries.map (fun e => "`" ++ e.1 ++ "`"), entries.map Prod.snd)
  | .record fields =>
    ((taggedFields fields).map (fun f => "`" ++ columnTag f ++ "`"),
      (taggedFields fields).map (fun f => fieldArg f.value))
  | .ptr (.record fields) =>
    ((taggedFields fields).map (fun f => "`" ++ columnTag f ++ "`"),
      (taggedFields fields).map (fun f => fieldArg f.value))
  | _ => ([], [])

/-- The filters that are not IN filters, in iteration order. -/
def nonInFilters (w : List (String × Value)) : List (String × Value) :=
  w.filter (fun e => !isInKey e.1)

/-! ### Sample descriptors -/

/-- A SELECT on table `t` with the single filter `id IN` over two values:
`Table("t").Select(nil, false).Where({"id IN": [1, 2]})`. -/
def selectInTwo : Info :=
  Where (Select (Table {} "t") [] false) [("id IN", Value.seq [Value.int 1, Value.int 2])]

/-- A DELETE on table `t` with the single filter `id in` over three values. -/
def deleteInThree : Info :=
  Where (Delete (Table {} "t"))
    [("id in", Value.seq [Value.int 1, Value.int 2, Value.int 3])]

/-- A SELECT on table `t` whose only filter is `id IN` over the empty sequence. -/
def selectInEmpty : Info :=
  Where (Select (Table {} "t") [] false) [("id IN", Value.seq [])]

/-- A SELECT with a filter and no table. -/
def selectNoTable : Info :=
  Where (Select (Table {} "") [] false) [("age >", Value.int 10)]

/-- A SELECT descriptor: table `t`, one filter, limit 10 and offset 5. -/
def exampleSelect : Info :=
  { table := "t", sType := SELECT, where_ := [("age >", Value.int 10)], limit := 10, offset := 5 }

/-- The struct of the test: `Name{ID: 1, Name: "abc", Age: 10}` with `db` tags `id`, `name`
and `age`. -/
def testName : List Field :=
  [⟨"ID", "id", "", FieldValue.uint 1⟩, ⟨"Name", "name", "", FieldValue.str "abc"⟩,
   ⟨"Age", "age", "", FieldValue.int 10⟩]

/-- An INSERT of a struct whose only field, tagged `at`, is a `time.Time`. -/
def insertTime : Info :=
  Insert (Table {} "t") (Payload.record [⟨"At", "at", "", FieldValue.other "time.Time"⟩])


/-! ## The client, the executor and the execution methods -/

/-- A value as the driver hands it to `Scan`: a `[]byte`, or anything else. -/
inductive Cell where
  /-- a `[]byte`, as its text -/
  | bytes (text : String)
  | value (v : Value)

/-- One result row as `All` returns it: a `map[string]interface{}` from column to value. -/
abbrev Row := List (String × Value)

/-- The cursor that `Query` returns: the outcome of `rows.Columns()`, and for every
`rows.Next()` that is true the outcome of `rows.Scan`, an error text or the cells read. -/
structure Rows where
  columns : Except String (List String)
  scans : List (Except String (List Cell))

/-- The database behind the client, as opaque functions. An `error` is its text. `Exec` is
given with the number that `RowsAffected` returns (its error is discarded by `Do`);
`setResultAll` and `setResultOne` are the JSON round trip of `setResult` into the target
with the given identity. -/
structure Executor where
  dbExec : String → List Value → Except String Int
  txExec : String → List Value → Except String Int
  txRollback : Option String
  dbQuery : String → List Value → Except String Rows
  setResultAll : List Row → Nat → Option String
  setResultOne : Row → Nat → Option String

/-- A call on the connection or on the transaction. -/
inductive Call where
  | dbExec (sql : String) (args : List Value)
  | txExec (sql : String) (args : List Value)
  | txRollback
  | dbQuery (sql : String) (args : List Value)

/-- The client `DBClient`. The connection `DB` and the transaction `Tx` are opaque handles,
`Tx` being `none` for the nil pointer; `DB` is taken to be a live connection, as `NewDB`
returns it. -/
structure DBClient where
  DB : Nat
  Info : Info := {}
  Tx : Option Nat := none
  AutoRollback : Bool := false

/-- How a method call ends: it returns, or it panics. -/
inductive Outcome (α : Type) where
  | returned (a : α)
  | panicked (msg : String)

/-- What a method call leaves: the client after it, the calls made on the database in
order, and the outcome. -/
structure Run (α : Type) where
  client : DBClient
  calls : List Call
  outcome : Outcome α

/-- The method `clear`: a new empty descriptor. -/
def clear (c : DBClient) : DBClient :=
  { c with Info := {} }

/-- The call `t.formatSQL()` as a change of the client: the client after the call and the
failure, if any. Both `return errors.New(...)` come before the first write, so an error
leaves the client as it was. On a panic the writes made before it are not modelled: the
deferred `clear` of the callers replaces the descriptor before it can be read. -/
def DBClient.formatSQL (c : DBClient) : DBClient × Option Failure :=
  match Sqlz.formatSQL c.Info with
  | .ok info => ({ c with Info := info }, none)
  | .error e => (c, some e)

/-- The verb `%v` of `fmt` on a boolean. -/
def fmtBool (b : Bool) : String :=
  if b then "true" else "false"

/-- The body of `Do`, before the deferred `clear`. -/
def doBody (ex : Executor) (c : DBClient) : Run (Int × Option String) :=
  if c.Info.sType = SELECT then
    ⟨c, [], .returned (0, some "should not select sqlz")⟩
  else
    match c.formatSQL with
    | (c, some (.error e)) => ⟨c, [], .returned (0, some ("formatSql error: " ++ e))⟩
    | (c, some (.panic m)) => ⟨c, [], .panicked m⟩
    | (c, none) =>
      match c.Tx with
      | some _ =>
        match ex.txExec c.Info.sql c.Info.args with
        | .error err =>
          if c.AutoRollback then
            match ex.txRollback with
            | some rerr =>
              ⟨c, [.txExec c.Info.sql c.Info.args, .txRollback],
                .returned (0, some ("exec error: " ++ err ++ ", and rollback err: " ++ rerr))⟩
            | none =>
              ⟨c, [.txExec c.Info.sql c.Info.args, .txRollback],
                .returned (0, some ("rollback:" ++ fmtBool c.AutoRollback ++
                  ", exec error: " ++ err))⟩
          else
            ⟨c, [.txExec c.Info.sql c.Info.args],
              .returned (0, some ("rollback:" ++ fmtBool c.AutoRollback ++
                ", exec error: " ++ err))⟩
        | .ok num => ⟨c, [.txExec c.Info.sql c.Info.args], .returned (num, none)⟩
      | none =>
        match ex.dbExec c.Info.sql c.Info.args with
        | .error err => ⟨c, [.dbExec c.Info.sql c.Info.args], .returned (0, some err)⟩
        | .ok num => ⟨c, [.dbExec c.Info.sql c.Info.args], .returned (num, none)⟩

/-- The method `Do`: the body, then the deferred `clear`. -/
def Do (ex : Executor) (c : DBClient) : Run (Int × Option String) :=
  let r := doBody ex c
  { r with client := clear r.client }

/-- The map assignment `d[col] = val` on a row. -/
def rowSet : Row → String → Value → Row
  | [], col, val => [(col, val)]
  | (k, v) :: rest, col, val =>
    if k = col then (k, val) :: rest else (k, v) :: rowSet rest col val

/-- The value stored for a cell: a `[]byte` is decoded to a string. -/
def cellValue : Cell → Value
  | .bytes text => .str text
  | .value v => v

/-- The loop of `All` over the columns of one scanned row; `i` is the index of the first
column of the list. A cell that was not read is nil. -/
def rowLoop : List String → Nat → List Cell → Row → Row
  | [], _, _, d => d
  | col :: rest, i, values, d =>
    rowLoop rest (i + 1) values (rowSet d col (cellValue (values.getD i (.value .null))))

/-- The loop `for rows.Next()` of `All`: the rows gathered and the error of the first
failed `Scan`, if any. -/
def scanLoop (columns : List String) : List (Except String (List Cell)) → List Row →
    List Row × Option String
  | [], data => (data, none)
  | .error err :: _, data => (data, some err)
  | .ok values :: rest, data => scanLoop columns rest (data ++ [rowLoop columns 0 values []])

/-- The body of `All`, before the deferred `clear`. The result is the slice of rows, `none`
for nil, and the error. -/
def allBody (ex : Executor) (c : DBClient) (result : Option Nat) :
    Run (Option (List Row) × Option String) :=
  if c.Info.sType ≠ SELECT then
    ⟨c, [], .returned (none, some "not select sqlz")⟩
  else
    match c.formatSQL with
    | (c, some (.error e)) => ⟨c, [], .returned (none, some ("formatSql error: " ++ e))⟩
    | (c, some (.panic m)) => ⟨c, [], .panicked m⟩
    | (c, none) =>
      match ex.dbQuery c.Info.sql c.Info.args with
      | .error err => ⟨c, [.dbQuery c.Info.sql c.Info.args], .returned (none, some err)⟩
      | .ok rows =>
        match rows.columns with
        | .error err => ⟨c, [.dbQuery c.Info.sql c.Info.args], .returned (none, some err)⟩
        | .ok columns =>
          match scanLoop columns rows.scans [] with
          | (data, some err) =>
            ⟨c, [.dbQuery c.Info.sql c.Info.args], .returned (some data, some err)⟩
          | (data, none) =>
            match result with
            | some target =>
              ⟨c, [.dbQuery c.Info.sql c.Info.args],
                .returned (some data, ex.setResultAll data target)⟩
            | none => ⟨c, [.dbQuery c.Info.sql c.Info.args], .returned (some data, none)⟩

/-- The method `All`: the body, then the deferred `clear`. -/
def All (ex : Executor) (c : DBClient) (result : Option Nat) :
    Run (Option (List Row) × Option String) :=
  let r := allBody ex c result
  { r with client := clear r.client }

/-- The method `First`. -/
def First (ex : Executor) (c : DBClient) (result : Option Nat) :
    Run (Option Row × Option String) :=
  let c := { c with Info := { c.Info with limit := 1 } }
  let r := All ex c none
  match r.outcome with
  | .panicked m => ⟨r.client, r.calls, .panicked m⟩
  | .returned (_, some err) => ⟨r.client, r.calls, .returned (none, some err)⟩
  | .returned (list, none) =>
    match list.getD [] with
    | [] => ⟨r.client, r.calls, .returned (none, none)⟩
    | data :: _ =>
      match result with
      | some target => ⟨r.client, r.calls, .returned (some data, ex.setResultOne data target)⟩
      | none => ⟨r.client, r.calls, .returned (some data, none)⟩

/-! ## The package `utils` -/

/-- The argument of `ToAnySlice`, by what `reflect` finds: a nil slice, a slice with its
elements boxed as `Interface()` boxes them, or a value of any other kind. -/
inductive SliceArg where
  | nilSlice
  | slice (elems : List Value)
  | notSlice

/-- The loop of `ToAnySlice`: `k` iterations from index `i`, each `r[i] = s[i]`. -/
def toAnyLoop (s : List Value) : Nat → Nat → List Value → List Value
  | 0, _, r => r
  | k + 1, i, r => toAnyLoop s k (i + 1) (r.set i (s.getD i .null))

/-- The function `ToAnySlice`; the result `none` is the nil slice. -/
def ToAnySlice : SliceArg → Except Failure (Option (List Value))
  | .notSlice => .error (.panic "Given a non-slice type")
  | .nilSlice => .ok none
  | .slice s => .ok (some (toAnyLoop s s.length 0 (List.replicate s.length .null)))

/-! ## Definitions used to state the properties of the execution methods -/

/-- Whether the text `s` contains the text `sub`. -/
def containsText (s sub : String) : Prop :=
  sub.data <:+: s.data

/-- A call that sets the statement kind. -/
inductive KindCall where
  | select (columns : List String) (distinct : Bool)
  | insert (data : Payload)
  | update (data : Payload)
  | delete

/-- The descriptor after a kind-setting call. -/
def applyKind (i : Info) : KindCall → Info
  | .select columns distinct => Select i columns distinct
  | .insert data => Insert i data
  | .update data => Update i data
  | .delete => Delete i

/-- The one pair of kind-setting calls in which the first leaves a trace: a `Select` with
columns followed by a `Select` without. -/
def keepsColumns : KindCall → KindCall → Bool
  | .select (_ :: _) _, .select [] _ => true
  | _, _ => false

/-- The descriptor after a sequence of `OrderBy(col, asc)` calls. -/
def applyOrderBy (i : Info) (calls : List (String × Bool)) : Info :=
  calls.foldl (fun i c => OrderBy i c.1 c.2) i

/-- The flag of the last call for the column `col`, if there is one. -/
def lastFlag (calls : List (String × Bool)) (col : String) : Option Bool :=
  (calls.reverse.find? (fun c => c.1 == col)).map Prod.snd

/-- A value that is a sequence: a `[]interface{}` or a slice of any other type. -/
def isSequence : Value → Bool
  | .seq _ => true
  | .slice _ => true
  | _ => false

/-- The precondition as the claim words it: every key has at least one token and every
value under an IN operator is a sequence. -/
def tokensAndSequences (w : List (String × Value)) : Bool :=
  w.all (fun e => !(stringsFields e.1).isEmpty && (!isInKey e.1 || isSequence e.2))

/-! ### Sample clients and executors -/

/-- An executor on which every statement affects 3 rows and every query is empty. -/
def okExecutor : Executor :=
  { dbExec := fun _ _ => .ok 3, txExec := fun _ _ => .ok 3, txRollback := none,
    dbQuery := fun _ _ => .ok ⟨.ok [], []⟩, setResultAll := fun _ _ => none,
    setResultOne := fun _ _ => none }

/-- An executor on which every statement fails with `boom` and the rollback with `lost`. -/
def failingExecutor : Executor :=
  { dbExec := fun _ _ => .error "boom", txExec := fun _ _ => .error "boom",
    txRollback := some "lost", dbQuery := fun _ _ => .error "boom",
    setResultAll := fun _ _ => none, setResultOne := fun _ _ => none }

/-- A client in a transaction with auto-rollback, holding `Table("t").Delete()`. -/
def deleteInTx : DBClient :=
  { DB := 1, Info := Delete (Table {} "t"), Tx := some 2, AutoRollback := true }

/-- A client holding `Table("t")` and no statement kind. -/
def tableOnly : DBClient :=
  { DB := 1, Info := Table {} "t" }

/-- A filter mapping whose IN value is a `[]int`. -/
def inTypedSlice : Info :=
  Where (Select (Table {} "t") [] false) [("id IN", Value.slice [Value.int 1, Value.int 2])]

/-- A filter with the three-token key `age NOT IN`. -/
def threeTokenKey : Info :=
  Where (Select (Table {} "t") [] false) [("age NOT IN", Value.int 5)]

/-- The builder after `Table("t").Select(nil, false)` and the calls `OrderBy("a", true)`,
`OrderBy("b", false)`, `OrderBy("a", false)`. -/
def orderedSelect : Info :=
  applyOrderBy (Select (Table {} "t") [] false) [("a", true), ("b", false), ("a", false)]
/-! ## Lemmas -/

/-- The scan of `strings.Fields` reads a run of non-space characters into the current field. -/
theorem fieldsGo_token (tok : List Char) (h : ∀ ch ∈ tok, isSpace ch = false) :
    ∀ (cur rest : List Char), fieldsGo cur (tok ++ rest) = fieldsGo (tok.reverse ++ cur) rest := by
  induction tok with
  | nil => intro cur rest; simp
  | cons c tok ih =>
    intro cur rest
    have hc : isSpace c = false := h c (List.mem_cons_self _ _)
    have ht : ∀ ch ∈ tok, isSpace ch = false := fun ch hch => h ch (List.mem_cons_of_mem _ hch)
    simp [fieldsGo, hc, ih ht]

/-- A token is not empty. -/
theorem isToken_ne_nil {s : String} (h : isToken s = true) : s.data ≠ [] := by
  unfold isToken at h
  intro h0
  simp [h0] at h

/-- A token holds no white space. -/
theorem isToken_noSpace {s : String} (h : isToken s = true) : ∀ ch ∈ s.data, isSpace ch = false := by
  unfold isToken at h
  simp at h
  exact h.2

/-- A key that is one token has that token as its only field. -/
theorem stringsFields_token {c : String} (hc : isToken c = true) : stringsFields c = [c] := by
  have h := fieldsGo_token c.data (isToken_noSpace hc) [] []
  simp at h
  unfold stringsFields
  rw [h]
  have hne := isToken_ne_nil hc
  simp [fieldsGo, hne]

/-- A key made of two tokens separated by one blank has exactly these two fields. -/
theorem stringsFields_pair {c op : String} (hc : isToken c = true) (hop : isToken op = true) :
    stringsFields (c ++ " " ++ op) = [c, op] := by
  have h1 := fieldsGo_token c.data (isToken_noSpace hc) [] (' ' :: op.data)
  have h2 := fieldsGo_token op.data (isToken_noSpace hop) [] []
  simp at h1 h2
  have hne := isToken_ne_nil hc
  have hne2 := isToken_ne_nil hop
  unfold stringsFields
  have : (c ++ " " ++ op).data = c.data ++ ' ' :: op.data := by simp
  rw [this, h1]
  have hsp : isSpace ' ' = true := by decide
  simp [fieldsGo, hsp, hne, h2, hne2]

/-- The two-token key, with the concatenation associated to the right. -/
theorem stringsFields_pair' {c op : String} (hc : isToken c = true) (hop : isToken op = true) :
    stringsFields (c ++ (" " ++ op)) = [c, op] := by
  rw [← String.append_assoc]; exact stringsFields_pair hc hop

/-- One iteration of the filter loop only appends to the fragments and arguments it is
given. -/
theorem whereStep_acc (list : List String) (args : List Value) (k : String) (v : Value) :
    whereStep list args k v =
      match whereStep [] [] k v with
      | .ok (l, a) => .ok (list ++ l, args ++ a)
      | .error e => .error e := by
  unfold whereStep
  by_cases hin : stringsToUpper (keyMark (stringsFields k)) = "IN"
  · simp only [hin, if_true]
    cases v <;> simp
    split <;> simp
  · simp only [hin, if_false]
    cases stringsFields k <;> simp

/-- The filter loop only appends to the fragments and arguments it is given. -/
theorem whereLoop_acc (es : List (String × Value)) :
    ∀ (list : List String) (args : List Value),
      whereLoop es list args =
        match whereLoop es [] [] with
        | .ok (l, a) => .ok (list ++ l, args ++ a)
        | .error e => .error e := by
  induction es with
  | nil => intro list args; simp [whereLoop]
  | cons e es ih =>
    intro list args
    obtain ⟨k, v⟩ := e
    simp only [whereLoop]
    rw [whereStep_acc list args k v]
    cases h : whereStep [] [] k v with
    | error e => simp
    | ok r =>
      obtain ⟨l, a⟩ := r
      simp only []
      rw [ih (list ++ l) (args ++ a), ih l a]
      cases whereLoop es [] [] with
      | error e => simp
      | ok r2 => obtain ⟨l2, a2⟩ := r2; simp [List.append_assoc]

/-- The ORDER BY loop appends one entry per sort key, in iteration order. -/
theorem orderLoop_eq (ob : List (String × Bool)) :
    ∀ tmp : List String, orderLoop ob tmp = tmp ++ ob.map orderByEntry := by
  induction ob with
  | nil => intro tmp; simp [orderLoop]
  | cons e ob ih =>
    intro tmp
    obtain ⟨k, v⟩ := e
    simp [orderLoop, ih, orderByEntry]

/-- The result of `buildWhere` in closed form. -/
theorem buildWhere_eq (i : Info) :
    buildWhere i =
      match whereLoop i.where_ [] [] with
      | .ok (list, vals) =>
        .ok { i with
              args := i.args ++ vals
              sql := i.sql ++ (whereClause i.where_ list ++ orderByClause i.orderBy ++
                      limitClause i.limit i.offset) }
      | .error e => .error e := by
  unfold buildWhere
  rw [whereLoop_acc i.where_ [] i.args]
  obtain ⟨table, sql, args, sType, data, w, columns, limit, offset, orderBy, distinct⟩ := i
  cases hl : whereLoop w [] [] with
  | error err => cases w <;> simp_all [whereLoop, bind, Except.bind]
  | ok r =>
    obtain ⟨list, vals⟩ := r
    have hnil : w = [] → vals = [] := by
      intro h; subst h; simp [whereLoop] at hl; exact hl.2
    cases w <;> cases orderBy <;> cases limit <;> cases offset <;>
      simp_all [whereClause, orderByClause, limitClause, orderLoop_eq, bind, Except.bind,
        pure, Except.pure] <;> (apply String.ext; simp)

/-- On filters none of which is an IN filter, the loop yields one fragment and one argument
per entry, in iteration order. -/
theorem whereLoop_nonIn (es : List (String × Value))
    (h : ∀ e ∈ es, isInKey e.1 = false ∧ stringsFields e.1 ≠ []) :
    whereLoop es [] [] = .ok (es.map (fun e => filterFragment e.1), es.map Prod.snd) := by
  induction es with
  | nil => simp [whereLoop]
  | cons e es ih =>
    obtain ⟨k, v⟩ := e
    have hk := h (k, v) (List.mem_cons_self _ _)
    have hrest : ∀ e ∈ es, isInKey e.1 = false ∧ stringsFields e.1 ≠ [] :=
      fun e he => h e (List.mem_cons_of_mem _ he)
    have hin : ¬ stringsToUpper (keyMark (stringsFields k)) = "IN" := by
      have := hk.1
      simpa [isInKey, keyOperator] using this
    have hstep : whereStep [] [] k v = .ok ([filterFragment k], [v]) := by
      unfold whereStep
      simp only [hin, if_false]
      cases hf : stringsFields k with
      | nil => exact absurd hf hk.2
      | cons col rest => simp [filterFragment, keyColumn, keyOperator, hf]
    simp only [whereLoop, hstep]
    rw [whereLoop_acc es [filterFragment k] [v], ih hrest]
    simp

/-- One iteration of the filter loop does not panic on a well-formed entry. -/
theorem whereStep_ok (list : List String) (args : List Value) (e : String × Value)
    (h : filterOk e = true) : ∃ r, whereStep list args e.1 e.2 = .ok r := by
  obtain ⟨k, v⟩ := e
  unfold filterOk at h
  unfold whereStep
  by_cases hin : stringsToUpper (keyMark (stringsFields k)) = "IN"
  · have hin' : isInKey k = true := by simpa [isInKey, keyOperator] using hin
    simp only [hin, if_true]
    simp only [hin', if_true] at h
    cases v <;> simp at h ⊢
    split <;> simp
  · have hin' : isInKey k = false := by simpa [isInKey, keyOperator] using hin
    simp only [hin, if_false]
    simp [hin'] at h
    cases hf : stringsFields k with
    | nil => exact absurd hf h
    | cons col rest => simp

/-- The filter loop does not panic on a well-formed filter mapping. -/
theorem whereLoop_ok (es : List (String × Value)) (h : filtersOk es = true) :
    ∀ (list : List String) (args : List Value), ∃ r, whereLoop es list args = .ok r := by
  induction es with
  | nil => intro list args; exact ⟨_, rfl⟩
  | cons e es ih =>
    intro list args
    obtain ⟨k, v⟩ := e
    have h1 : filterOk (k, v) = true := by
      simp [filtersOk] at h; exact h.1
    have h2 : filtersOk es = true := by
      simp [filtersOk] at h ⊢; exact h.2
    obtain ⟨⟨l, a⟩, hr⟩ := whereStep_ok list args (k, v) h1
    simp only [whereLoop]
    simp only [] at hr
    rw [hr]
    exact ih h2 l a

/-- The result of `formatSQL` on a SELECT descriptor in closed form. -/
theorem formatSQL_select (i : Info) (ht : i.table ≠ "") (hs : i.sType = SELECT) :
    formatSQL i =
      match whereLoop i.where_ [] [] with
      | .ok (list, vals) =>
        .ok { i with
              args := i.args ++ vals
              sql := i.sql ++ ("SELECT " ++ selectCols i ++ " FROM `" ++ i.table ++ "`") ++
                      (whereClause i.where_ list ++ orderByClause i.orderBy ++
                        limitClause i.limit i.offset) }
      | .error e => .error e := by
  unfold formatSQL
  simp only [ht, hs, if_false]
  simp
  rw [buildWhere_eq]

/-- The result of `formatSQL` on a DELETE descriptor in closed form. -/
theorem formatSQL_delete (i : Info) (ht : i.table ≠ "") (hs : i.sType = DELETE) :
    formatSQL i =
      match whereLoop i.where_ [] [] with
      | .ok (list, vals) =>
        .ok { i with
              args := i.args ++ vals
              sql := i.sql ++ ("DELETE FROM `" ++ i.table ++ "`") ++
                      (whereClause i.where_ list ++ orderByClause i.orderBy ++
                        limitClause i.limit i.offset) }
      | .error e => .error e := by
  unfold formatSQL
  simp only [ht, hs, if_false]
  simp
  rw [buildWhere_eq]

/-- The mapping loop of an INSERT in closed form. -/
theorem mapLoop_insert (es : List (String × Value)) :
    ∀ (cd qm : List String) (args : List Value),
      mapLoop INSERT es cd qm args =
        (cd ++ es.map (fun e => "`" ++ e.1 ++ "`"), qm ++ List.replicate es.length "?",
          args ++ es.map Prod.snd) := by
  induction es with
  | nil => intro cd qm args; simp [mapLoop]
  | cons e es ih =>
    intro cd qm args
    obtain ⟨k, v⟩ := e
    simp [mapLoop, ih, List.replicate_succ]

/-- The mapping loop of a statement other than INSERT in closed form. -/
theorem mapLoop_other (sType : Nat) (hs : sType ≠ INSERT) (es : List (String × Value)) :
    ∀ (cd qm : List String) (args : List Value),
      mapLoop sType es cd qm args =
        (cd ++ es.map (fun e => "`" ++ e.1 ++ "`=?"), qm, args ++ es.map Prod.snd) := by
  induction es with
  | nil => intro cd qm args; simp [mapLoop]
  | cons e es ih =>
    intro cd qm args
    obtain ⟨k, v⟩ := e
    simp [mapLoop, ih, hs]

/-- A field with a column name is kept. -/
theorem taggedFields_cons_tagged (f : Field) (fs : List Field) (h : columnTag f ≠ "") :
    taggedFields (f :: fs) = f :: taggedFields fs := by
  simp [taggedFields, h]

/-- A field without a column name is skipped. -/
theorem taggedFields_cons_untagged (f : Field) (fs : List Field) (h : columnTag f = "") :
    taggedFields (f :: fs) = taggedFields fs := by
  simp [taggedFields, h]

/-- The struct loop of an INSERT in closed form. -/
theorem structLoop_insert (fs : List Field) :
    ∀ (cd qm : List String) (args : List Value),
      structLoop INSERT fs cd qm args =
        (cd ++ (taggedFields fs).map (fun f => "`" ++ columnTag f ++ "`"),
          qm ++ List.replicate (taggedFields fs).length "?",
          args ++ (taggedFields fs).map (fun f => fieldArg f.value)) := by
  induction fs with
  | nil => intro cd qm args; simp [structLoop, taggedFields]
  | cons f fs ih =>
    intro cd qm args
    by_cases hk : columnTag f = ""
    · have hk' : (if f.db = "" then f.json else f.db) = "" := hk
      simp only [structLoop, hk', if_true, ih]
      rw [taggedFields_cons_untagged f fs hk]
    · have hk' : ¬ (if f.db = "" then f.json else f.db) = "" := hk
      have hc : (if f.db = "" then f.json else f.db) = columnTag f := rfl
      simp only [structLoop, hk', if_false, if_true, ih]
      rw [taggedFields_cons_tagged f fs hk, hc]
      simp [List.replicate_succ]

/-- The struct loop of a statement other than INSERT in closed form. -/
theorem structLoop_other (sType : Nat) (hs : sType ≠ INSERT) (fs : List Field) :
    ∀ (cd qm : List String) (args : List Value),
      structLoop sType fs cd qm args =
        (cd ++ (taggedFields fs).map (fun f => "`" ++ columnTag f ++ "`=?"), qm,
          args ++ (taggedFields fs).map (fun f => fieldArg f.value)) := by
  induction fs with
  | nil => intro cd qm args; simp [structLoop, taggedFields]
  | cons f fs ih =>
    intro cd qm args
    by_cases hk : columnTag f = ""
    · have hk' : (if f.db = "" then f.json else f.db) = "" := hk
      simp only [structLoop, hk', if_true, ih]
      rw [taggedFields_cons_untagged f fs hk]
    · have hk' : ¬ (if f.db = "" then f.json else f.db) = "" := hk
      have hc : (if f.db = "" then f.json else f.db) = columnTag f := rfl
      simp only [structLoop, hk', if_false, hs, ih]
      rw [taggedFields_cons_tagged f fs hk, hc]
      simp

/-- Limit 0, no LIMIT/OFFSET clause, whatever the offset. -/
theorem limitClause_zero (o : Nat) : limitClause 0 o = "" := by
  simp [limitClause]

/-- The result of `formatSQL` on an UPDATE descriptor in closed form. -/
theorem formatSQL_update (i : Info) (ht : i.table ≠ "") (hs : i.sType = UPDATE)
    (hd : payloadOk i.data = true) :
    formatSQL i =
      match whereLoop i.where_ [] [] with
      | .ok (list, vals) =>
        .ok { i with
              args := i.args ++ (updateSet i.data).2 ++ vals
              sql := i.sql ++ ("UPDATE `" ++ i.table ++ "` SET " ++
                      stringsJoin (updateSet i.data).1 ",") ++
                      (whereClause i.where_ list ++ orderByClause i.orderBy ++
                        limitClause i.limit i.offset) }
      | .error e => .error e := by
  obtain ⟨table, sql, args, sType, data, w, columns, limit, offset, orderBy, distinct⟩ := i
  simp only at hs ht hd
  subst hs
  match data, hd with
  | .strMap entries, _ =>
    cases hloop : whereLoop w [] [] with
    | error e =>
      simp [formatSQL, ht, Payload.isNil, buildData, finishData,
        mapLoop_other UPDATE (by decide), buildWhere_eq, hloop]
    | ok r =>
      simp [formatSQL, ht, Payload.isNil, buildData, finishData,
        mapLoop_other UPDATE (by decide), buildWhere_eq, hloop, updateSet]
      apply String.ext; simp
  | .record fields, _ =>
    cases hloop : whereLoop w [] [] with
    | error e =>
      simp [formatSQL, ht, Payload.isNil, buildData, finishData,
        structLoop_other UPDATE (by decide), buildWhere_eq, hloop]
    | ok r =>
      simp [formatSQL, ht, Payload.isNil, buildData, finishData,
        structLoop_other UPDATE (by decide), buildWhere_eq, hloop, updateSet]
      apply String.ext; simp
  | .ptr (.record fields), _ =>
    cases hloop : whereLoop w [] [] with
    | error e =>
      simp [formatSQL, ht, Payload.isNil, buildData, finishData,
        structLoop_other UPDATE (by decide), buildWhere_eq, hloop]
    | ok r =>
      simp [formatSQL, ht, Payload.isNil, buildData, finishData,
        structLoop_other UPDATE (by decide), buildWhere_eq, hloop, updateSet]
      apply String.ext; simp

/-- The character of a digit below ten is a decimal digit. -/
theorem digitChar_isDigit : ∀ m, m < 10 → (Nat.digitChar m).isDigit = true := by decide

/-- Decimal printing yields decimal digits only. -/
theorem toDigitsCore_isDigit (fuel : Nat) :
    ∀ (n : Nat) (ds : List Char), (∀ c ∈ ds, c.isDigit = true) →
      ∀ c ∈ Nat.toDigitsCore 10 fuel n ds, c.isDigit = true := by
  induction fuel with
  | zero => intro n ds h; simpa [Nat.toDigitsCore] using h
  | succ f ih =>
    intro n ds h
    have hd : (Nat.digitChar (n % 10)).isDigit = true :=
      digitChar_isDigit _ (Nat.mod_lt _ (by decide))
    have hds : ∀ c ∈ Nat.digitChar (n % 10) :: ds, c.isDigit = true := by
      intro c hc
      rcases List.mem_cons.mp hc with h1 | h1
      · rw [h1]; exact hd
      · exact h c h1
    simp only [Nat.toDigitsCore]
    split
    · exact hds
    · exact ih _ _ hds

/-- Decimal printing never shortens its accumulator to nothing. -/
theorem toDigitsCore_ne_nil (fuel : Nat) :
    ∀ (n : Nat) (ds : List Char), ds ≠ [] → Nat.toDigitsCore 10 fuel n ds ≠ [] := by
  induction fuel with
  | zero => intro n ds h; simpa [Nat.toDigitsCore] using h
  | succ f ih =>
    intro n ds _
    simp only [Nat.toDigitsCore]
    split
    · simp
    · exact ih _ _ (by simp)

/-- The characters of a printed unsigned integer. -/
theorem fmtUint_data (n : Nat) : (fmtUint n).data = Nat.toDigits 10 n := rfl

/-- A printed unsigned integer holds decimal digits only. -/
theorem fmtUint_isDigit (n : Nat) : ∀ c ∈ (fmtUint n).data, c.isDigit = true := by
  rw [fmtUint_data]
  exact toDigitsCore_isDigit _ _ _ (by simp)

/-- A printed unsigned integer is not empty. -/
theorem fmtUint_ne_nil (n : Nat) : (fmtUint n).data ≠ [] := by
  rw [fmtUint_data]
  unfold Nat.toDigits
  simp only [Nat.toDigitsCore]
  split
  · simp
  · exact toDigitsCore_ne_nil _ _ _ (by simp)

/-- The test `endsWith` decides the suffix relation on the characters. -/
theorem endsWith_iff (s x : String) : endsWith s x = true ↔ x.data <:+ s.data := by
  unfold endsWith
  rw [ List.isPrefixOf_iff_prefix, List.reverse_prefix]

/-- The empty text has no trailing digit. -/
theorem noTrailingDigit_nil : noTrailingDigit [] := by
  intro c h; simp at h

/-- Two texts without a trailing digit concatenate to one without. -/
theorem noTrailingDigit_append {a b : List Char} (ha : noTrailingDigit a)
    (hb : noTrailingDigit b) : noTrailingDigit (a ++ b) := by
  intro c h
  rw [List.getLast?_append] at h
  cases hbl : b.getLast? with
  | none => rw [hbl] at h; exact ha c (by simpa using h)
  | some d => rw [hbl] at h; simp at h; subst h; exact hb d hbl

/-- A text ending in a character that is not a digit has no trailing digit. -/
theorem noTrailingDigit_snoc (a : List Char) (c : Char) (hc : c.isDigit = false) :
    noTrailingDigit (a ++ [c]) := by
  intro d h
  simp at h
  subst h
  exact hc

/-- A text ending in a given character that is not a digit has no trailing digit. -/
theorem noTrailingDigit_of_endsInChar {c : Char} {s : String} (hc : c.isDigit = false)
    (h : endsInChar c s) : noTrailingDigit s.data := by
  obtain ⟨p, hp⟩ := h
  rw [hp]
  exact noTrailingDigit_snoc p c hc

/-- Joining texts that all end in `c` gives a text that ends in `c`. -/
theorem endsInChar_join (c : Char) (sep : String) :
    ∀ l : List String, l ≠ [] → (∀ s ∈ l, endsInChar c s) → endsInChar c (stringsJoin l sep) := by
  intro l
  induction l with
  | nil => intro h; exact absurd rfl h
  | cons a l ih =>
    intro _ hall
    cases l with
    | nil => simpa [stringsJoin] using hall a (List.mem_cons_self _ _)
    | cons b rest =>
      have hrest : ∀ s ∈ b :: rest, endsInChar c s :=
        fun s hs => hall s (List.mem_cons_of_mem _ hs)
      obtain ⟨p, hp⟩ := ih (by simp) hrest
      refine ⟨a.data ++ sep.data ++ p, ?_⟩
      simp [stringsJoin, hp]

/-- No text ending in a digit is a suffix of a text that does not end in a digit. -/
theorem not_suffix_of_noTrailingDigit {p y ds : List Char} (hp : noTrailingDigit p)
    (hne : ds ≠ []) (hds : ∀ c ∈ ds, c.isDigit = true) : ¬ (y ++ ds) <:+ p := by
  intro h
  obtain ⟨q, hq⟩ := h
  obtain ⟨d, hd⟩ : ∃ d, ds.getLast? = some d := by
    cases h0 : ds.getLast? with
    | none => exact absurd (List.getLast?_eq_none_iff.mp h0) hne
    | some d => exact ⟨d, rfl⟩
  have hmem : d ∈ ds := List.mem_of_getLast?_eq_some hd
  have hlast : p.getLast? = some d := by
    rw [← hq, ← List.append_assoc, List.getLast?_append, hd]
    rfl
  have := hp d hlast
  rw [hds d hmem] at this
  cases this

/-- Two texts that start with a run of digits followed by the same non-digit: if the first
is an initial segment of the second, so are the remainders after that character. -/
theorem digit_run_head (sp : Char) (hsp : sp.isDigit = false) :
    ∀ (ds1 ds2 r1 r2 : List Char), (∀ c ∈ ds1, c.isDigit = true) →
      (∀ c ∈ ds2, c.isDigit = true) → ds1 ++ sp :: r1 <+: ds2 ++ sp :: r2 → r1 <+: r2 := by
  intro ds1
  induction ds1 with
  | nil =>
    intro ds2 r1 r2 _ h2 h
    cases ds2 with
    | nil => simpa [List.cons_prefix_cons] using h
    | cons d ds2 =>
      simp [List.cons_prefix_cons] at h
      have := h2 d (List.mem_cons_self _ _)
      rw [← h.1, hsp] at this
      cases this
  | cons d1 ds1 ih =>
    intro ds2 r1 r2 h1 h2 h
    cases ds2 with
    | nil =>
      simp [List.cons_prefix_cons] at h
      have := h1 d1 (List.mem_cons_self _ _)
      rw [h.1, hsp] at this
      cases this
    | cons d2 ds2 =>
      simp [List.cons_prefix_cons] at h
      exact ih ds2 r1 r2 (fun c hc => h1 c (List.mem_cons_of_mem _ hc))
        (fun c hc => h2 c (List.mem_cons_of_mem _ hc)) h.2

/-- A text ending in ` OFFSET <digits>` is not a suffix of one ending in ` LIMIT <digits>`. -/
theorem offset_not_suffix_limit (a b ds1 ds2 : List Char) (h1 : ∀ c ∈ ds1, c.isDigit = true)
    (h2 : ∀ c ∈ ds2, c.isDigit = true) :
    ¬ (a ++ (" OFFSET ".data ++ ds1)) <:+ (b ++ (" LIMIT ".data ++ ds2)) := by
  intro h
  rw [← List.reverse_prefix] at h
  have h' : ds1.reverse ++ ' ' :: ("TESFFO ".data ++ a.reverse) <+:
      ds2.reverse ++ ' ' :: ("TIMIL ".data ++ b.reverse) := by
    simpa using h
  have := digit_run_head ' ' (by decide) _ _ _ _ (by simpa using h1) (by simpa using h2) h'
  simp [List.cons_prefix_cons] at this

/-- A text ending in ` LIMIT <digits>` is not a suffix of one ending in ` OFFSET <digits>`. -/
theorem limit_not_suffix_offset (a b ds1 ds2 : List Char) (h1 : ∀ c ∈ ds1, c.isDigit = true)
    (h2 : ∀ c ∈ ds2, c.isDigit = true) :
    ¬ (a ++ (" LIMIT ".data ++ ds1)) <:+ (b ++ (" OFFSET ".data ++ ds2)) := by
  intro h
  rw [← List.reverse_prefix] at h
  have h' : ds1.reverse ++ ' ' :: ("TIMIL ".data ++ a.reverse) <+:
      ds2.reverse ++ ' ' :: ("TESFFO ".data ++ b.reverse) := by
    simpa using h
  have := digit_run_head ' ' (by decide) _ _ _ _ (by simpa using h1) (by simpa using h2) h'
  simp [List.cons_prefix_cons] at this

/-- Every fragment that an iteration of the filter loop adds ends in a placeholder. -/
theorem whereStep_endsInChar (l : List String) (a : List Value) (k : String) (v : Value)
    (l' : List String) (a' : List Value) (h : whereStep l a k v = .ok (l', a'))
    (hl : ∀ s ∈ l, endsInChar '?' s) : ∀ s ∈ l', endsInChar '?' s := by
  unfold whereStep at h
  by_cases hin : stringsToUpper (keyMark (stringsFields k)) = "IN"
  · simp only [hin, if_true] at h
    cases v <;> simp at h
    split at h <;> simp at h <;> (rw [← h.1]; exact hl)
  · simp only [hin, if_false] at h
    cases hf : stringsFields k with
    | nil => simp [hf] at h
    | cons col rest =>
      simp [hf] at h
      rw [← h.1]
      intro s hs
      rcases List.mem_append.mp hs with h1 | h1
      · exact hl s h1
      · simp at h1
        subst h1
        exact ⟨("`" ++ (col ++ ("` " ++ (keyMark (col :: rest) ++ " ")))).data, by simp⟩

/-- Every fragment that the filter loop adds ends in a placeholder. -/
theorem whereLoop_endsInChar (es : List (String × Value)) :
    ∀ (l : List String) (a : List Value) (l' : List String) (a' : List Value),
      whereLoop es l a = .ok (l', a') → (∀ s ∈ l, endsInChar '?' s) →
        ∀ s ∈ l', endsInChar '?' s := by
  induction es with
  | nil =>
    intro l a l' a' h hl
    simp [whereLoop] at h
    rw [← h.1]; exact hl
  | cons e es ih =>
    intro l a l' a' h hl
    obtain ⟨k, v⟩ := e
    simp only [whereLoop] at h
    cases hst : whereStep l a k v with
    | error err => simp [hst] at h
    | ok r =>
      obtain ⟨l1, a1⟩ := r
      simp only [hst] at h
      exact ih l1 a1 l' a' h (whereStep_endsInChar l a k v l1 a1 hst hl)

/-- The WHERE clause does not end in a digit. -/
theorem whereClause_noTrailingDigit (w : List (String × Value)) (list : List String)
    (hl : ∀ s ∈ list, endsInChar '?' s) : noTrailingDigit (whereClause w list).data := by
  unfold whereClause
  split
  · exact noTrailingDigit_nil
  · cases hlist : list with
    | nil =>
      intro c h
      simp [stringsJoin] at h
      subst h; decide
    | cons s rest =>
      rw [← hlist]
      have hj := endsInChar_join '?' "," list (by simp [hlist]) hl
      simp only [String.data_append]
      exact noTrailingDigit_append (by intro c h; simp at h; subst h; decide)
        (noTrailingDigit_of_endsInChar (by decide) hj)

/-- An ORDER BY entry ends in the letter C of ASC or DESC. -/
theorem orderByEntry_endsInChar (e : String × Bool) : endsInChar 'C' (orderByEntry e) := by
  obtain ⟨k, v⟩ := e
  cases v
  · exact ⟨("`" ++ k ++ "` DES").data, by simp [orderByEntry]⟩
  · exact ⟨("`" ++ k ++ "` AS").data, by simp [orderByEntry]⟩

/-- The ORDER BY clause does not end in a digit. -/
theorem orderByClause_noTrailingDigit (ob : List (String × Bool)) :
    noTrailingDigit (orderByClause ob).data := by
  unfold orderByClause
  split
  · exact noTrailingDigit_nil
  · rename_i hne
    have hj := endsInChar_join 'C' "," (ob.map orderByEntry)
      (by cases ob <;> simp at hne ⊢)
      (by intro s hs; obtain ⟨e, _, he⟩ := List.mem_map.mp hs; rw [← he]; exact orderByEntry_endsInChar e)
    simp only [String.data_append]
    exact noTrailingDigit_append (by intro c h; simp at h; subst h; decide)
      (noTrailingDigit_of_endsInChar (by decide) hj)

/-- The placeholders of a concatenation. -/
theorem countPlaceholders_append (a b : String) :
    countPlaceholders (a ++ b) = countPlaceholders a + countPlaceholders b := by
  simp [countPlaceholders, List.count_append]

/-- Joining with commas adds no placeholder. -/
theorem countPlaceholders_join (l : List String) :
    countPlaceholders (stringsJoin l ",") = (l.map countPlaceholders).sum := by
  induction l with
  | nil => rfl
  | cons a l ih =>
    cases l with
    | nil => simp [stringsJoin]
    | cons b rest =>
      have hc : countPlaceholders "," = 0 := by decide
      simp only [stringsJoin, countPlaceholders_append, hc, ih, List.map_cons, List.sum_cons]
      omega

/-- A sum of ones counts the elements. -/
theorem sum_map_eq_length {α : Type} (l : List α) (f : α → Nat) (h : ∀ x ∈ l, f x = 1) :
    (l.map f).sum = l.length := by
  induction l with
  | nil => rfl
  | cons a l ih =>
    simp only [List.map_cons, List.sum_cons, List.length_cons]
    rw [h a (List.mem_cons_self _ _), ih (fun x hx => h x (List.mem_cons_of_mem _ hx))]
    omega

/-- A sum of zeros is zero. -/
theorem sum_map_eq_zero {α : Type} (l : List α) (f : α → Nat) (h : ∀ x ∈ l, f x = 0) :
    (l.map f).sum = 0 := by
  induction l with
  | nil => rfl
  | cons a l ih =>
    simp only [List.map_cons, List.sum_cons]
    rw [h a (List.mem_cons_self _ _), ih (fun x hx => h x (List.mem_cons_of_mem _ hx))]

/-- A printed unsigned integer holds no placeholder. -/
theorem countPlaceholders_fmtUint (n : Nat) : countPlaceholders (fmtUint n) = 0 := by
  unfold countPlaceholders
  rw [List.count_eq_zero]
  intro h
  have := fmtUint_isDigit n '?' h
  exact absurd this (by decide)

/-- The LIMIT/OFFSET clause holds no placeholder. -/
theorem countPlaceholders_limitClause (l o : Nat) : countPlaceholders (limitClause l o) = 0 := by
  unfold limitClause
  have h1 : countPlaceholders " LIMIT " = 0 := by decide
  have h2 : countPlaceholders " OFFSET " = 0 := by decide
  have h3 : countPlaceholders "" = 0 := by decide
  split
  · exact h3
  · split <;> simp [countPlaceholders_append, countPlaceholders_fmtUint, h1, h2]

/-- The ORDER BY clause holds no placeholder when its columns hold none. -/
theorem countPlaceholders_orderByClause (ob : List (String × Bool))
    (h : ∀ e ∈ ob, noPlaceholder e.1 = true) : countPlaceholders (orderByClause ob) = 0 := by
  unfold orderByClause
  have h1 : countPlaceholders " ORDER BY " = 0 := by decide
  have h2 : countPlaceholders "` " = 0 := by decide
  have h3 : countPlaceholders "`" = 0 := by decide
  have h4 : countPlaceholders "ASC" = 0 := by decide
  have h5 : countPlaceholders "DESC" = 0 := by decide
  split
  · decide
  · rw [countPlaceholders_append, countPlaceholders_join, List.map_map, h1, Nat.zero_add]
    apply sum_map_eq_zero
    intro e he
    have := h e he
    simp only [noPlaceholder, decide_eq_true_eq] at this
    obtain ⟨k, v⟩ := e
    cases v <;> simp [orderByEntry, countPlaceholders_append, h2, h3, h4, h5, this] at this ⊢

/-- The column list of a SELECT holds no placeholder when the columns hold none. -/
theorem countPlaceholders_selectCols (i : Info)
    (h : ∀ c ∈ i.columns, noPlaceholder c = true) : countPlaceholders (selectCols i) = 0 := by
  unfold selectCols
  have h1 : countPlaceholders "DISTINCT " = 0 := by decide
  have h3 : countPlaceholders "`" = 0 := by decide
  have hj : countPlaceholders (stringsJoin (i.columns.map (fun c => "`" ++ c ++ "`")) ",") = 0 := by
    rw [countPlaceholders_join, List.map_map]
    apply sum_map_eq_zero
    intro c hc
    have := h c hc
    simp only [noPlaceholder, decide_eq_true_eq] at this
    simp [countPlaceholders_append, h3, this]
  split
  · split
    · simp [countPlaceholders_append, h1, hj]
    · simpa using hj
  · decide

/-- The result of `formatSQL` on an INSERT descriptor in closed form. -/
theorem formatSQL_insert (i : Info) (ht : i.table ≠ "") (hs : i.sType = INSERT)
    (hd : payloadOk i.data = true) :
    formatSQL i =
      .ok { i with
            args := i.args ++ (insertSet i.data).2
            sql := i.sql ++ ("INSERT INTO `" ++ i.table ++ "` (" ++
                    stringsJoin (insertSet i.data).1 "," ++ ") VALUES (" ++
                    stringsJoin (List.replicate (insertSet i.data).2.length "?") "," ++ ")") } := by
  obtain ⟨table, sql, args, sType, data, w, columns, limit, offset, orderBy, distinct⟩ := i
  simp only at hs ht hd
  subst hs
  match data, hd with
  | .strMap entries, _ =>
    simp [formatSQL, ht, Payload.isNil, buildData, finishData, mapLoop_insert, insertSet]
    apply String.ext; simp
  | .record fields, _ =>
    simp [formatSQL, ht, Payload.isNil, buildData, finishData, structLoop_insert, insertSet]
    apply String.ext; simp
  | .ptr (.record fields), _ =>
    simp [formatSQL, ht, Payload.isNil, buildData, finishData, structLoop_insert, insertSet]
    apply String.ext; simp

/-- The filter loop on a mapping whose IN filters all carry the empty sequence: one
fragment and one argument per filter that is not an IN filter. -/
theorem whereLoop_skipIn (es : List (String × Value)) (hw : filtersOk es = true)
    (hin : inFiltersEmpty es = true) :
    whereLoop es [] [] =
      .ok ((nonInFilters es).map (fun e => filterFragment e.1),
           (nonInFilters es).map Prod.snd) := by
  induction es with
  | nil => rfl
  | cons e es ih =>
    obtain ⟨k, v⟩ := e
    have hw1 : filterOk (k, v) = true := by simp [filtersOk] at hw; exact hw.1
    have hw2 : filtersOk es = true := by simp [filtersOk] at hw ⊢; exact hw.2
    have hin2 : inFiltersEmpty es = true := by
      simp [inFiltersEmpty] at hin ⊢; exact hin.2
    simp only [whereLoop]
    by_cases hk : isInKey k = true
    · have hv : v = .seq [] := by
        simp [inFiltersEmpty, hk] at hin
        have h1 := hin.1
        split at h1
        · rfl
        · exact absurd h1 (by simp)
      have hin' : stringsToUpper (keyMark (stringsFields k)) = "IN" := by
        simpa [isInKey, keyOperator] using hk
      have hstep : whereStep [] [] k v = .ok ([], []) := by
        subst hv
        simp [whereStep, hin']
      rw [hstep]
      simp only []
      rw [ih hw2 hin2]
      simp [nonInFilters, hk]
    · have hk' : isInKey k = false := by simpa using hk
      have hin' : ¬ stringsToUpper (keyMark (stringsFields k)) = "IN" := by
        simpa [isInKey, keyOperator] using hk'
      have hf : stringsFields k ≠ [] := by
        simpa [filterOk, hk'] using hw1
      have hstep : whereStep [] [] k v = .ok ([filterFragment k], [v]) := by
        unfold whereStep
        simp only [hin', if_false]
        cases hfs : stringsFields k with
        | nil => exact absurd hfs hf
        | cons col rest => simp [filterFragment, keyColumn, keyOperator, hfs]
      rw [hstep]
      simp only []
      rw [whereLoop_acc es [filterFragment k] [v], ih hw2 hin2]
      simp [nonInFilters, hk']

/-- The fragment of a filter whose column and operator hold no `?` holds one placeholder. -/
theorem countPlaceholders_filterFragment (k : String)
    (h1 : noPlaceholder (keyColumn k) = true) (h2 : noPlaceholder (keyOperator k) = true) :
    countPlaceholders (filterFragment k) = 1 := by
  simp only [noPlaceholder, decide_eq_true_eq] at h1 h2
  have a1 : countPlaceholders "`" = 0 := by decide
  have a2 : countPlaceholders "` " = 0 := by decide
  have a3 : countPlaceholders " ?" = 1 := by decide
  simp [filterFragment, countPlaceholders_append, h1, h2, a1, a2, a3]

/-- The WHERE clause of clean filters holds one placeholder per fragment. -/
theorem countPlaceholders_whereClause (w : List (String × Value))
    (hc : ∀ e ∈ w, noPlaceholder (keyColumn e.1) = true ∧ noPlaceholder (keyOperator e.1) = true) :
    countPlaceholders (whereClause w ((nonInFilters w).map (fun e => filterFragment e.1))) =
      (nonInFilters w).length := by
  unfold whereClause
  have a1 : countPlaceholders " WHERE " = 0 := by decide
  split
  · rename_i hnil
    have : w = [] := by simpa using hnil
    subst this
    rfl
  · rw [countPlaceholders_append, countPlaceholders_join, List.map_map, a1, Nat.zero_add]
    apply sum_map_eq_length
    intro e he
    have hmem : e ∈ w := (List.mem_filter.mp he).1
    exact countPlaceholders_filterFragment e.1 (hc e hmem).1 (hc e hmem).2

/-- The `col=?` fragments of a clean UPDATE payload hold one placeholder per value. -/
theorem countPlaceholders_updateSet (p : Payload) (hc : payloadClean p = true) :
    countPlaceholders (stringsJoin (updateSet p).1 ",") = (updateSet p).2.length := by
  have a1 : countPlaceholders "`" = 0 := by decide
  have a2 : countPlaceholders "`=?" = 1 := by decide
  rw [countPlaceholders_join]
  match p, hc with
  | .strMap entries, hc =>
    simp only [updateSet, List.map_map, List.length_map]
    apply sum_map_eq_length
    intro e he
    have := (List.all_eq_true.mp hc) e he
    simp only [noPlaceholder, decide_eq_true_eq] at this
    simp [countPlaceholders_append, a1, a2, this]
  | .record fields, hc =>
    simp only [updateSet, List.map_map, List.length_map]
    apply sum_map_eq_length
    intro f hf
    have := (List.all_eq_true.mp hc) f (List.mem_filter.mp hf).1
    simp only [noPlaceholder, decide_eq_true_eq] at this
    simp [countPlaceholders_append, a1, a2, this]
  | .ptr (.record fields), hc =>
    simp only [updateSet, List.map_map, List.length_map]
    apply sum_map_eq_length
    intro f hf
    have := (List.all_eq_true.mp hc) f (List.mem_filter.mp hf).1
    simp only [noPlaceholder, decide_eq_true_eq] at this
    simp [countPlaceholders_append, a1, a2, this]
  | .nil, _ => rfl
  | .otherMap, _ => rfl
  | .nilPtr, _ => rfl
  | .other, _ => rfl
  | .ptr .nil, _ => rfl
  | .ptr (.strMap _), _ => rfl
  | .ptr .otherMap, _ => rfl
  | .ptr (.ptr _), _ => rfl
  | .ptr .nilPtr, _ => rfl
  | .ptr .other, _ => rfl

/-- The quoted columns of a clean INSERT payload hold no placeholder. -/
theorem countPlaceholders_insertSet (p : Payload) (hc : payloadClean p = true) :
    countPlaceholders (stringsJoin (insertSet p).1 ",") = 0 := by
  have a1 : countPlaceholders "`" = 0 := by decide
  rw [countPlaceholders_join]
  match p, hc with
  | .strMap entries, hc =>
    simp only [insertSet, List.map_map]
    apply sum_map_eq_zero
    intro e he
    have := (List.all_eq_true.mp hc) e he
    simp only [noPlaceholder, decide_eq_true_eq] at this
    simp [countPlaceholders_append, a1, this]
  | .record fields, hc =>
    simp only [insertSet, List.map_map]
    apply sum_map_eq_zero
    intro f hf
    have := (List.all_eq_true.mp hc) f (List.mem_filter.mp hf).1
    simp only [noPlaceholder, decide_eq_true_eq] at this
    simp [countPlaceholders_append, a1, this]
  | .ptr (.record fields), hc =>
    simp only [insertSet, List.map_map]
    apply sum_map_eq_zero
    intro f hf
    have := (List.all_eq_true.mp hc) f (List.mem_filter.mp hf).1
    simp only [noPlaceholder, decide_eq_true_eq] at this
    simp [countPlaceholders_append, a1, this]
  | .nil, _ => rfl
  | .otherMap, _ => rfl
  | .nilPtr, _ => rfl
  | .other, _ => rfl
  | .ptr .nil, _ => rfl
  | .ptr (.strMap _), _ => rfl
  | .ptr .otherMap, _ => rfl
  | .ptr (.ptr _), _ => rfl
  | .ptr .nilPtr, _ => rfl
  | .ptr .other, _ => rfl

/-- The text of `n` placeholders joined with commas holds `n` placeholders. -/
theorem countPlaceholders_replicate (n : Nat) :
    countPlaceholders (stringsJoin (List.replicate n "?") ",") = n := by
  rw [countPlaceholders_join]
  have := sum_map_eq_length (List.replicate n "?") countPlaceholders
    (by intro x hx; rw [(List.mem_replicate.mp hx).2]; decide)
  simpa using this

/-- Apart from IN filters over a non-empty sequence, rendering keeps arguments and
placeholders in step: for a descriptor of one of the four kinds on a non-empty table, with
a payload and filters on which the code does not panic, whose tokens hold no `?` and whose
IN filters all carry the empty sequence, `formatSQL` succeeds and appends as many
placeholders to `sql` as values to `args`. -/
theorem formatSQL_placeholders_match (i : Info) (ht : i.table ≠ "")
    (hk : i.sType = SELECT ∨ i.sType = UPDATE ∨ i.sType = INSERT ∨ i.sType = DELETE)
    (hd : payloadOk i.data = true ∨ i.sType = SELECT ∨ i.sType = DELETE)
    (hw : filtersOk i.where_ = true) (hin : inFiltersEmpty i.where_ = true)
    (hc : tokensClean i = true) :
    ∃ r, formatSQL i = .ok r ∧
      countPlaceholders r.sql + i.args.length = countPlaceholders i.sql + r.args.length := by
  simp only [tokensClean, Bool.and_eq_true] at hc
  obtain ⟨⟨⟨⟨hct, hcc⟩, hcw⟩, hco⟩, hcd⟩ := hc
  simp only [noPlaceholder, decide_eq_true_eq] at hct
  have hcw' : ∀ e ∈ i.where_,
      noPlaceholder (keyColumn e.1) = true ∧ noPlaceholder (keyOperator e.1) = true := by
    intro e he
    have := (List.all_eq_true.mp hcw) e he
    simpa using this
  have hW := countPlaceholders_whereClause i.where_ hcw'
  have hO := countPlaceholders_orderByClause i.orderBy (List.all_eq_true.mp hco)
  have hL := countPlaceholders_limitClause i.limit i.offset
  have hloop := whereLoop_skipIn i.where_ hw hin
  have a1 : countPlaceholders "SELECT " = 0 := by decide
  have a2 : countPlaceholders " FROM `" = 0 := by decide
  have a3 : countPlaceholders "`" = 0 := by decide
  have a4 : countPlaceholders "DELETE FROM `" = 0 := by decide
  have a5 : countPlaceholders "UPDATE `" = 0 := by decide
  have a6 : countPlaceholders "` SET " = 0 := by decide
  have a7 : countPlaceholders "INSERT INTO `" = 0 := by decide
  have a8 : countPlaceholders "` (" = 0 := by decide
  have a9 : countPlaceholders ") VALUES (" = 0 := by decide
  have a10 : countPlaceholders ")" = 0 := by decide
  rcases hk with hs | hs | hs | hs
  · have hS := countPlaceholders_selectCols i (List.all_eq_true.mp hcc)
    rw [formatSQL_select i ht hs, hloop]
    refine ⟨_, rfl, ?_⟩
    simp only [countPlaceholders_append, hW, hO, hL, hS, hct, a1, a2, a3, List.length_append,
      List.length_map]
    omega
  · have hd' : payloadOk i.data = true := by
      rcases hd with h | h | h
      · exact h
      · rw [hs] at h; exact absurd h (by decide)
      · rw [hs] at h; exact absurd h (by decide)
    have hU := countPlaceholders_updateSet i.data hcd
    rw [formatSQL_update i ht hs hd', hloop]
    refine ⟨_, rfl, ?_⟩
    simp only [countPlaceholders_append, hW, hO, hL, hU, hct, a5, a6, List.length_append,
      List.length_map]
    omega
  · have hd' : payloadOk i.data = true := by
      rcases hd with h | h | h
      · exact h
      · rw [hs] at h; exact absurd h (by decide)
      · rw [hs] at h; exact absurd h (by decide)
    have hI := countPlaceholders_insertSet i.data hcd
    rw [formatSQL_insert i ht hs hd']
    refine ⟨_, rfl, ?_⟩
    simp only [countPlaceholders_append, countPlaceholders_replicate, hI, hct, a7, a8, a9, a10,
      List.length_append]
    omega
  · rw [formatSQL_delete i ht hs, hloop]
    refine ⟨_, rfl, ?_⟩
    simp only [countPlaceholders_append, hW, hO, hL, hct, a4, a3, List.length_append,
      List.length_map]
    omega

/-! ## The claims -/

/-- C1 (evaluated at the failing input): the SELECT with the filter `id IN` over `[1, 2]`
meets the preconditions (non-empty table, kind SELECT, the IN filter carries a sequence, no
`?` in any token) and renders without error, yet the rendered text has no placeholder
while two arguments were appended. Without such a filter the two numbers agree, see
`formatSQL_placeholders_match`. -/
theorem formatSQL_in_filter_args_exceed_placeholders :
    selectInTwo.table ≠ "" ∧ selectInTwo.sType = SELECT ∧
    filtersOk selectInTwo.where_ = true ∧ tokensClean selectInTwo = true ∧
    ∃ r, formatSQL selectInTwo = .ok r ∧ countPlaceholders r.sql = 0 ∧ r.args.length = 2 :=
  ⟨by decide, rfl, by decide, by decide, _, rfl, by decide, rfl⟩

/-- C2 (evaluated at the failing input): for the filter `id in` over `[1, 2, 3]` the loop
of `buildWhere` appends the three values to the arguments and adds no fragment, so the
text after ` WHERE ` is empty: the fragment with the three placeholders is built and
dropped. -/
theorem buildWhere_in_fragment_dropped :
    whereLoop deleteInThree.where_ [] [] =
      .ok ([], [Value.int 1, Value.int 2, Value.int 3]) ∧
    render deleteInThree =
      .ok ("DELETE FROM `t` WHERE ", [Value.int 1, Value.int 2, Value.int 3]) :=
  ⟨rfl, rfl⟩

/-- C3 (evaluated at the failing input): with `id IN` over the empty sequence as the only
filter, the filter adds no argument, but the text ` WHERE ` is still written, with nothing
after it. -/
theorem formatSQL_empty_in_dangling_where :
    render selectInEmpty = .ok ("SELECT * FROM `t` WHERE ", []) ∧
    endsWith "SELECT * FROM `t` WHERE " " WHERE " = true :=
  ⟨rfl, by decide⟩

/-- C4 (counterexample): with the empty table name the SELECT with the single filter
`age >` does not render; `formatSQL` returns the error `table name empty`. -/
theorem select_single_filter_empty_table :
    render selectNoTable = .error (.error "table name empty") ∧
    render selectNoTable ≠ .ok ("SELECT * FROM `` WHERE `age` > ?", [Value.int 10]) := by
  have h : render selectNoTable = .error (.error "table name empty") := rfl
  refine ⟨h, ?_⟩
  rw [h]
  intro h2
  cases h2

/-- C4 (amended): for every non-empty table `t`, every column `c` and operator `op` that
are single tokens, `op` not being IN, and every value `v`, the SELECT descriptor with no
columns, no ordering, limit 0 and the single filter `c op` renders
``SELECT * FROM `t` WHERE `c` op ?`` with the arguments `[v]`; with the key `c` alone the
operator is `=`. -/
theorem select_single_filter (t c op : String) (v : Value) (o : Nat) (d : Bool) (p : Payload)
    (ht : t ≠ "") (hc : isToken c = true) (hop : isToken op = true)
    (hin : stringsToUpper op ≠ "IN") :
    render { table := t, sType := SELECT, where_ := [(c ++ " " ++ op, v)],
             offset := o, distinct := d, data := p } =
      .ok ("SELECT * FROM `" ++ t ++ "` WHERE `" ++ c ++ "` " ++ op ++ " ?", [v]) ∧
    render { table := t, sType := SELECT, where_ := [(c, v)],
             offset := o, distinct := d, data := p } =
      .ok ("SELECT * FROM `" ++ t ++ "` WHERE `" ++ c ++ "` = ?", [v]) := by
  have heq : stringsToUpper "=" ≠ "IN" := by decide
  constructor
  · simp [render, formatSQL, ht, buildWhere, whereLoop, whereStep, stringsFields_pair hc hop,
      keyMark, hin, selectCols, stringsJoin, bind, Except.bind, pure, Except.pure]
    apply String.ext; simp
  · simp [render, formatSQL, ht, buildWhere, whereLoop, whereStep, stringsFields_token hc,
      keyMark, heq, selectCols, stringsJoin, bind, Except.bind, pure, Except.pure]
    apply String.ext; simp

/-- C4 (witness): table `t`, filter `age >` with value 10, and the key `age` alone. -/
theorem select_single_filter_witness :
    ("t" : String) ≠ "" ∧ isToken "age" = true ∧ isToken ">" = true ∧
    stringsToUpper ">" ≠ "IN" ∧
    render { table := "t", sType := SELECT, where_ := [("age >", Value.int 10)] } =
      .ok ("SELECT * FROM `t` WHERE `age` > ?", [Value.int 10]) ∧
    render { table := "t", sType := SELECT, where_ := [("age", Value.int 10)] } =
      .ok ("SELECT * FROM `t` WHERE `age` = ?", [Value.int 10]) :=
  ⟨by decide, by decide, by decide, by decide,
   select_single_filter "t" "age" ">" (Value.int 10) 0 false Payload.nil
     (by decide) (by decide) (by decide) (by decide)⟩

/-- C5: for a filter mapping of at least two entries, none an IN filter and each key with
at least one token, `buildWhere` appends ` WHERE ` followed by the fragments
`` `col` op ? `` of the entries joined with `,` in iteration order (then the ORDER BY and
LIMIT text), and appends the values of the entries to the arguments in the same order;
for a SELECT this is the text and the arguments that `formatSQL` renders. -/
theorem buildWhere_comma_join (i : Info) (hn : 2 ≤ i.where_.length)
    (h : ∀ e ∈ i.where_, isInKey e.1 = false ∧ stringsFields e.1 ≠ []) :
    buildWhere i =
      .ok { i with
            args := i.args ++ i.where_.map Prod.snd
            sql := i.sql ++ (" WHERE " ++
                    stringsJoin (i.where_.map (fun e => filterFragment e.1)) "," ++
                    orderByClause i.orderBy ++ limitClause i.limit i.offset) } ∧
    (i.table ≠ "" → i.sType = SELECT →
      formatSQL i =
        .ok { i with
              args := i.args ++ i.where_.map Prod.snd
              sql := i.sql ++ ("SELECT " ++ selectCols i ++ " FROM `" ++ i.table ++ "`") ++
                      (" WHERE " ++
                        stringsJoin (i.where_.map (fun e => filterFragment e.1)) "," ++
                        orderByClause i.orderBy ++ limitClause i.limit i.offset) }) := by
  have hne : i.where_.isEmpty = false := by
    cases hw : i.where_ with
    | nil => simp [hw] at hn
    | cons e es => rfl
  constructor
  · rw [buildWhere_eq, whereLoop_nonIn i.where_ h]
    simp [whereClause, hne]
  · intro ht hs
    rw [formatSQL_select i ht hs, whereLoop_nonIn i.where_ h]
    simp [whereClause, hne]

/-- C5 (witness): the filters `age >` and `name` render `` `age` > ?,`name` = ? ``. -/
theorem buildWhere_comma_join_witness :
    2 ≤ [("age >", Value.int 10), ("name", Value.str "abc")].length ∧
    (∀ e ∈ [("age >", Value.int 10), ("name", Value.str "abc")],
      isInKey e.1 = false ∧ stringsFields e.1 ≠ []) ∧
    buildWhere { table := "t", sType := SELECT, sql := "SELECT * FROM `t`",
                 where_ := [("age >", Value.int 10), ("name", Value.str "abc")] } =
      .ok { table := "t", sType := SELECT,
            where_ := [("age >", Value.int 10), ("name", Value.str "abc")],
            sql := "SELECT * FROM `t` WHERE `age` > ?,`name` = ?",
            args := [Value.int 10, Value.str "abc"] } :=
  ⟨by decide, by decide,
   (buildWhere_comma_join
      { table := "t", sType := SELECT, sql := "SELECT * FROM `t`",
        where_ := [("age >", Value.int 10), ("name", Value.str "abc")] }
      (by decide) (by decide)).1⟩

/-- C6: on a non-empty table `t`, the descriptor configured by `Select(cs, distinct)` with
no filters, ordering or limit renders ``SELECT * FROM `t` `` when `cs` is empty, whatever
`distinct` is, and otherwise `SELECT `, then `DISTINCT ` when `distinct` is set, then the
columns each in backticks joined with `,`, then `` FROM `t` ``; no argument is produced. -/
theorem select_column_list (t : String) (cs : List String) (distinct : Bool) (ht : t ≠ "") :
    render (Select (Table {} t) cs distinct) =
      .ok (if cs.isEmpty then "SELECT * FROM `" ++ t ++ "`"
           else "SELECT " ++ (if distinct then "DISTINCT " else "") ++
                stringsJoin (cs.map (fun c => "`" ++ c ++ "`")) "," ++ " FROM `" ++ t ++ "`",
           []) := by
  cases cs <;> cases distinct <;>
    (simp [render, formatSQL, Select, Table, ht, buildWhere_eq, whereLoop, whereClause,
      orderByClause, limitClause, selectCols]
     try (apply String.ext; simp))

/-- C6 (witness): columns `a`, `b` with `distinct` set on table `t`. -/
theorem select_column_list_witness :
    ("t" : String) ≠ "" ∧
    render (Select (Table {} "t") ["a", "b"] true) =
      .ok ("SELECT DISTINCT `a`,`b` FROM `t`", []) :=
  ⟨by decide, select_column_list "t" ["a", "b"] true (by decide)⟩

/-- C7: a SELECT descriptor on a non-empty table with well-formed filters renders, and the
rendered text ends with ` LIMIT l` exactly when `l > 0` and `o = 0`, ends with
` LIMIT l OFFSET o` exactly when `l > 0` and `o > 0`, and for `l = 0` ends with no
` LIMIT n` and no ` OFFSET n` for any `n`: it stops after the ORDER BY clause and is the
text rendered with offset 0. -/
theorem select_limit_offset (i : Info) (ht : i.table ≠ "") (hs : i.sType = SELECT)
    (hw : filtersOk i.where_ = true) :
    ∃ r, formatSQL i = .ok r ∧
      (endsWith r.sql (" LIMIT " ++ fmtUint i.limit) = true ↔ (0 < i.limit ∧ i.offset = 0)) ∧
      (endsWith r.sql (" LIMIT " ++ fmtUint i.limit ++ " OFFSET " ++ fmtUint i.offset) = true ↔
        (0 < i.limit ∧ 0 < i.offset)) ∧
      (i.limit = 0 →
        (∀ n, endsWith r.sql (" LIMIT " ++ fmtUint n) = false ∧
              endsWith r.sql (" OFFSET " ++ fmtUint n) = false) ∧
        (∃ list, r.sql = i.sql ++ ("SELECT " ++ selectCols i ++ " FROM `" ++ i.table ++ "`") ++
                  (whereClause i.where_ list ++ orderByClause i.orderBy)) ∧
        formatSQL { i with offset := 0 } = .ok { r with offset := 0 }) := by
  obtain ⟨⟨list, vals⟩, hloop⟩ := whereLoop_ok i.where_ hw [] []
  have hlist := whereLoop_endsInChar i.where_ [] [] list vals hloop (by simp)
  have hfmt := formatSQL_select i ht hs
  have hfmt0 := formatSQL_select { i with offset := 0 } ht hs
  simp only [hloop] at hfmt hfmt0
  refine ⟨_, hfmt, ?_⟩
  -- the text before the LIMIT clause does not end in a digit
  have hP : noTrailingDigit
      (i.sql ++ ("SELECT " ++ selectCols i ++ " FROM `" ++ i.table ++ "`") ++
        (whereClause i.where_ list ++ orderByClause i.orderBy)).data := by
    simp only [String.data_append]
    refine noTrailingDigit_append ?_
      (noTrailingDigit_append (whereClause_noTrailingDigit _ _ hlist)
        (orderByClause_noTrailingDigit _))
    rw [← List.append_assoc]
    exact noTrailingDigit_snoc _ _ (by decide)
  have hS : ∀ l o : Nat,
      (i.sql ++ ("SELECT " ++ selectCols i ++ " FROM `" ++ i.table ++ "`") ++
        (whereClause i.where_ list ++ orderByClause i.orderBy ++ limitClause l o)).data =
      (i.sql ++ ("SELECT " ++ selectCols i ++ " FROM `" ++ i.table ++ "`") ++
        (whereClause i.where_ list ++ orderByClause i.orderBy)).data ++ (limitClause l o).data := by
    intro l o
    simp only [String.data_append, List.append_assoc]
  simp only [endsWith_iff, Bool.eq_false_iff, ne_eq, hS]
  generalize hPd : (i.sql ++ ("SELECT " ++ selectCols i ++ " FROM `" ++ i.table ++ "`") ++
        (whereClause i.where_ list ++ orderByClause i.orderBy)).data = Pd at hP
  have hdl := fmtUint_isDigit i.limit
  have hdo := fmtUint_isDigit i.offset
  rcases Nat.eq_zero_or_pos i.limit with hl | hl
  · -- no LIMIT clause
    have hlc : (limitClause i.limit i.offset).data = [] := by rw [hl, limitClause_zero]
    rw [hlc, List.append_nil]
    refine ⟨?_, ?_, ?_⟩
    · constructor
      · intro h
        simp only [String.data_append] at h
        exact absurd h (not_suffix_of_noTrailingDigit hP (fmtUint_ne_nil _) hdl)
      · intro h; omega
    · constructor
      · intro h
        simp only [String.data_append] at h
        exact absurd h (not_suffix_of_noTrailingDigit hP (fmtUint_ne_nil _) hdo)
      · intro h; omega
    · intro _
      refine ⟨?_, ?_, ?_⟩
      · intro n
        constructor
        · intro h
          simp only [String.data_append] at h
          exact not_suffix_of_noTrailingDigit hP (fmtUint_ne_nil _) (fmtUint_isDigit n) h
        · intro h
          simp only [String.data_append] at h
          exact not_suffix_of_noTrailingDigit hP (fmtUint_ne_nil _) (fmtUint_isDigit n) h
      · refine ⟨list, ?_⟩
        rw [hl, limitClause_zero]
        apply String.ext; simp
      · rw [hfmt0]
        simp [hl, limitClause_zero, selectCols]
  · have hl0 : i.limit ≠ 0 := by omega
    rcases Nat.eq_zero_or_pos i.offset with ho | ho
    · have hlc : (limitClause i.limit i.offset).data = " LIMIT ".data ++ (fmtUint i.limit).data := by
        simp [limitClause, hl0, ho]
      rw [hlc]
      refine ⟨?_, ?_, ?_⟩
      · constructor
        · intro _; exact ⟨hl, ho⟩
        · intro _
          simp only [String.data_append]
          exact List.suffix_append _ _
      · constructor
        · intro h
          have h' : (" LIMIT ".data ++ (fmtUint i.limit).data) ++
              (" OFFSET ".data ++ (fmtUint i.offset).data) <:+
              Pd ++ (" LIMIT ".data ++ (fmtUint i.limit).data) := by
            simpa [List.append_assoc] using h
          exact absurd h' (offset_not_suffix_limit _ _ _ _ hdo hdl)
        · intro h; omega
      · intro h; omega
    · have ho0 : i.offset ≠ 0 := by omega
      have hlc : (limitClause i.limit i.offset).data =
          " LIMIT ".data ++ (fmtUint i.limit).data ++ (" OFFSET ".data ++ (fmtUint i.offset).data) := by
        simp [limitClause, hl0, ho0]
      rw [hlc]
      refine ⟨?_, ?_, ?_⟩
      · constructor
        · intro h
          have h' : [] ++ (" LIMIT ".data ++ (fmtUint i.limit).data) <:+
              (Pd ++ (" LIMIT ".data ++ (fmtUint i.limit).data)) ++
                (" OFFSET ".data ++ (fmtUint i.offset).data) := by
            simpa [List.append_assoc] using h
          exact absurd h' (limit_not_suffix_offset _ _ _ _ hdl hdo)
        · intro h; omega
      · constructor
        · intro _; exact ⟨hl, ho⟩
        · intro _
          simp only [String.data_append, List.append_assoc]
          exact List.suffix_append _ _
      · intro h; omega

/-- C7 (witness): limit 10 and offset 5 on table `t` with one filter. -/
theorem select_limit_offset_witness :
    exampleSelect.table ≠ "" ∧ exampleSelect.sType = SELECT ∧
    filtersOk exampleSelect.where_ = true ∧
    ∃ r, formatSQL exampleSelect = .ok r ∧
      (endsWith r.sql (" LIMIT " ++ fmtUint exampleSelect.limit) = true ↔
        (0 < exampleSelect.limit ∧ exampleSelect.offset = 0)) ∧
      (endsWith r.sql (" LIMIT " ++ fmtUint exampleSelect.limit ++ " OFFSET " ++
          fmtUint exampleSelect.offset) = true ↔
        (0 < exampleSelect.limit ∧ 0 < exampleSelect.offset)) ∧
      (exampleSelect.limit = 0 →
        (∀ n, endsWith r.sql (" LIMIT " ++ fmtUint n) = false ∧
              endsWith r.sql (" OFFSET " ++ fmtUint n) = false) ∧
        (∃ list, r.sql = exampleSelect.sql ++
                  ("SELECT " ++ selectCols exampleSelect ++ " FROM `" ++
                    exampleSelect.table ++ "`") ++
                  (whereClause exampleSelect.where_ list ++
                    orderByClause exampleSelect.orderBy)) ∧
        formatSQL { exampleSelect with offset := 0 } = .ok { r with offset := 0 }) :=
  ⟨by decide, rfl, by decide, select_limit_offset exampleSelect (by decide) rfl (by decide)⟩

/-- C9: on a non-empty table `t`, a mapping payload visited as `(k1,v1),...,(kn,vn)`
renders for INSERT the text ``INSERT INTO `t` (`k1`,...,`kn`) VALUES (?,...,?)`` with `n`
placeholders and the arguments `[v1,...,vn]`; for UPDATE, with well-formed filters, it
renders ``UPDATE `t` SET `k1`=?,...,`kn`=?`` followed by the text that `buildWhere` writes,
with the arguments `[v1,...,vn]` followed by the arguments that `buildWhere` appends. -/
theorem mapping_payload (t : String) (entries w : List (String × Value)) (cs : List String)
    (l o : Nat) (ob : List (String × Bool)) (d : Bool) (ht : t ≠ "") :
    render { table := t, sType := INSERT, data := .strMap entries, where_ := w, columns := cs,
             limit := l, offset := o, orderBy := ob, distinct := d } =
      .ok ("INSERT INTO `" ++ t ++ "` (" ++
             stringsJoin (entries.map (fun e => "`" ++ e.1 ++ "`")) "," ++ ") VALUES (" ++
             stringsJoin (List.replicate entries.length "?") "," ++ ")",
           entries.map Prod.snd) ∧
    (filtersOk w = true →
      ∃ r, buildWhere { where_ := w, limit := l, offset := o, orderBy := ob } = .ok r ∧
        render { table := t, sType := UPDATE, data := .strMap entries, where_ := w,
                 columns := cs, limit := l, offset := o, orderBy := ob, distinct := d } =
          .ok ("UPDATE `" ++ t ++ "` SET " ++
                 stringsJoin (entries.map (fun e => "`" ++ e.1 ++ "`=?")) "," ++ r.sql,
               entries.map Prod.snd ++ r.args)) := by
  constructor
  · simp [render, formatSQL, ht, Payload.isNil, buildData, finishData, mapLoop_insert]
    apply String.ext; simp
  · intro hw
    obtain ⟨⟨list, vals⟩, hloop⟩ := whereLoop_ok w hw [] []
    refine ⟨_, by rw [buildWhere_eq]; simp only [hloop]; rfl, ?_⟩
    simp [render, formatSQL, ht, Payload.isNil, buildData, finishData,
      mapLoop_other UPDATE (by decide), buildWhere_eq, hloop]
    apply String.ext; simp

/-- C9 (witness): `Update({age: 20}).Where({name: "abc"})` on table `test`. -/
theorem mapping_payload_witness :
    ("test" : String) ≠ "" ∧ filtersOk [("name", Value.str "abc")] = true ∧
    render { table := "test", sType := INSERT, data := .strMap [("age", Value.int 20)],
             where_ := [("name", Value.str "abc")] } =
      .ok ("INSERT INTO `test` (`age`) VALUES (?)", [Value.int 20]) ∧
    render { table := "test", sType := UPDATE, data := .strMap [("age", Value.int 20)],
             where_ := [("name", Value.str "abc")] } =
      .ok ("UPDATE `test` SET `age`=? WHERE `name` = ?", [Value.int 20, Value.str "abc"]) := by
  obtain ⟨hins, hupd⟩ :=
    mapping_payload "test" [("age", Value.int 20)] [("name", Value.str "abc")] [] 0 0 []
      false (by decide)
  obtain ⟨r, hr, h⟩ := hupd (by decide)
  have hr' : buildWhere { where_ := [("name", Value.str "abc")], limit := 0, offset := 0,
                          orderBy := [] } =
      .ok { where_ := [("name", Value.str "abc")], sql := " WHERE `name` = ?",
            args := [Value.str "abc"] } := rfl
  rw [hr'] at hr
  cases hr
  exact ⟨by decide, by decide, hins, h⟩

/-- C10 (evaluated at the failing input): INSERT of a struct whose only field, a `time.Time`
tagged `at`, produces the column and the placeholder of that field, but the argument bound
is the text `<time.Time Value>` that `val.String()` yields for a kind other than string,
not the value of the field; the branches for string, integer, float and bool bind the
value. -/
theorem insert_record_other_kind :
    render insertTime =
      .ok ("INSERT INTO `t` (`at`) VALUES (?)", [Value.str "<time.Time Value>"]) :=
  rfl

/-- INSERT of a struct payload in closed form: on a non-empty table, a struct given by value
or through a pointer produces one column and one placeholder per field that has a
non-empty `db` tag or, failing that, a non-empty `json` tag, in declaration order, and one
argument per such field, computed by `fieldArg`; fields with neither tag contribute
nothing. For a field of kind string, signed or unsigned integer, float or bool the
argument is the value of the field. -/
theorem insert_record (t : String) (fields : List Field) (w : List (String × Value))
    (cs : List String) (l o : Nat) (ob : List (String × Bool)) (d : Bool) (ht : t ≠ "") :
    render { table := t, sType := INSERT, data := .record fields, where_ := w, columns := cs,
             limit := l, offset := o, orderBy := ob, distinct := d } =
      .ok ("INSERT INTO `" ++ t ++ "` (" ++
             stringsJoin ((taggedFields fields).map (fun f => "`" ++ columnTag f ++ "`")) "," ++
             ") VALUES (" ++
             stringsJoin (List.replicate (taggedFields fields).length "?") "," ++ ")",
           (taggedFields fields).map (fun f => fieldArg f.value)) ∧
    render { table := t, sType := INSERT, data := .ptr (.record fields), where_ := w,
             columns := cs, limit := l, offset := o, orderBy := ob, distinct := d } =
      render { table := t, sType := INSERT, data := .record fields, where_ := w, columns := cs,
               limit := l, offset := o, orderBy := ob, distinct := d } ∧
    (∀ s, fieldArg (.str s) = .str s) ∧ (∀ n, fieldArg (.int n) = .int n) ∧
    (∀ n, fieldArg (.uint n) = .uint n) ∧ (∀ b, fieldArg (.float b) = .float b) ∧
    (∀ b, fieldArg (.bool b) = .bool b) := by
  refine ⟨?_, ?_, fun _ => rfl, fun _ => rfl, fun _ => rfl, fun _ => rfl, fun _ => rfl⟩
  · simp [render, formatSQL, ht, Payload.isNil, buildData, finishData, structLoop_insert]
    apply String.ext; simp
  · simp [render, formatSQL, ht, Payload.isNil, buildData, finishData]

/-- The struct of the test, `Name{ID: 1, Name: "abc", Age: 10}` tagged `id`, `name`, `age`,
inserted into table `test`: three columns, three placeholders and the three values. -/
theorem insert_record_witness :
    ("test" : String) ≠ "" ∧
    render { table := "test", sType := INSERT, data := .record testName } =
      .ok ("INSERT INTO `test` (`id`,`name`,`age`) VALUES (?,?,?)",
           [Value.uint 1, Value.str "abc", Value.int 10]) :=
  ⟨by decide, (insert_record "test" testName [] [] 0 0 [] false (by decide)).1⟩

/-! ## Lemmas on the execution methods, the kind calls and the sort keys -/

/-- An iteration of the filter loop fails only by a panic. -/
theorem whereStep_error_panic (l : List String) (a : List Value) (k : String) (v : Value)
    (e : Failure) (h : whereStep l a k v = .error e) : ∃ m, e = .panic m := by
  unfold whereStep at h
  by_cases hin : stringsToUpper (keyMark (stringsFields k)) = "IN"
  · simp only [hin, if_true] at h
    cases v <;> simp at h <;> first | exact ⟨_, h.symm⟩ | (split at h <;> simp at h)
  · simp only [hin, if_false] at h
    cases hf : stringsFields k with
    | nil => simp [hf] at h; exact ⟨_, h.symm⟩
    | cons col rest => simp [hf] at h

/-- The filter loop fails only by a panic. -/
theorem whereLoop_error_panic (es : List (String × Value)) :
    ∀ (l : List String) (a : List Value) (e : Failure),
      whereLoop es l a = .error e → ∃ m, e = .panic m := by
  induction es with
  | nil => intro l a e h; simp [whereLoop] at h
  | cons x es ih =>
    intro l a e h
    obtain ⟨k, v⟩ := x
    simp only [whereLoop] at h
    cases hst : whereStep l a k v with
    | error err =>
      simp only [hst] at h
      cases h
      exact whereStep_error_panic l a k v _ hst
    | ok r =>
      obtain ⟨l1, a1⟩ := r
      simp only [hst] at h
      exact ih l1 a1 e h

/-- The method `buildWhere` fails only by a panic. -/
theorem buildWhere_error_panic (i : Info) (e : Failure) (h : buildWhere i = .error e) :
    ∃ m, e = .panic m := by
  rw [buildWhere_eq] at h
  cases hl : whereLoop i.where_ [] [] with
  | error err =>
    simp only [hl] at h
    cases h
    exact whereLoop_error_panic _ _ _ _ hl
  | ok r => obtain ⟨l, a⟩ := r; simp [hl] at h

/-- The method `buildData` fails only by a panic. -/
theorem buildData_error_panic (i : Info) (e : Failure) (h : buildData i = .error e) :
    ∃ m, e = .panic m := by
  unfold buildData at h
  split at h <;> first | exact ⟨_, (Except.error.inj h).symm⟩ | cases h

/-- Past its two checks, `formatSQL` fails only by a panic. -/
theorem formatSQL_error_panic (i : Info) (ht : i.table ≠ "")
    (hd : ¬ ((i.sType = INSERT ∨ i.sType = UPDATE) ∧ i.data.isNil = true)) (e : Failure)
    (h : formatSQL i = .error e) : ∃ m, e = .panic m := by
  unfold formatSQL at h
  by_cases h1 : i.sType = SELECT
  · simp [ht, h1] at h
    exact buildWhere_error_panic _ _ h
  · by_cases h2 : i.sType = UPDATE
    · have hn : i.data.isNil = false := by
        cases hnil : i.data.isNil with
        | false => rfl
        | true => exact absurd ⟨Or.inr h2, hnil⟩ hd
      simp [ht, h2, hn] at h
      split at h
      · exact buildWhere_error_panic _ _ h
      · rename_i hb
        cases h
        exact buildData_error_panic _ _ hb
    · by_cases h3 : i.sType = INSERT
      · have hn : i.data.isNil = false := by
          cases hnil : i.data.isNil with
          | false => rfl
          | true => exact absurd ⟨Or.inl h3, hnil⟩ hd
        simp [ht, h3, hn] at h
        exact buildData_error_panic _ _ h
      · by_cases h4 : i.sType = DELETE
        · simp [ht, h4] at h
          exact buildWhere_error_panic _ _ h
        · simp [ht, h1, h2, h3, h4] at h

/-- The call `t.formatSQL()` changes the descriptor only. -/
theorem clear_formatSQL (c : DBClient) : clear c.formatSQL.1 = clear c := by
  unfold DBClient.formatSQL
  cases Sqlz.formatSQL c.Info <;> rfl

/-- The body of `Do` changes the descriptor only. -/
theorem clear_doBody (ex : Executor) (c : DBClient) : clear (doBody ex c).client = clear c := by
  have hc := clear_formatSQL c
  unfold doBody
  split
  · rfl
  · split <;> rename_i heq <;> rw [heq] at hc <;> simp only at hc
    · exact hc
    · exact hc
    · split
      · split
        · split
          · split <;> exact hc
          · exact hc
        · exact hc
      · split <;> exact hc

/-- The body of `All` changes the descriptor only. -/
theorem clear_allBody (ex : Executor) (c : DBClient) (result : Option Nat) :
    clear (allBody ex c result).client = clear c := by
  have hc := clear_formatSQL c
  unfold allBody
  split
  · rfl
  · split <;> rename_i heq <;> rw [heq] at hc <;> simp only at hc
    · exact hc
    · exact hc
    · split
      · exact hc
      · split
        · exact hc
        · split
          · exact hc
          · split <;> exact hc

/-- A text contains the text it ends with. -/
theorem containsText_append_right (a e : String) : containsText (a ++ e) e := by
  unfold containsText
  rw [String.data_append]
  exact (List.suffix_append _ _).isInfix

/-- A text contains what stands between a beginning and an end. -/
theorem containsText_middle (a e b : String) : containsText (a ++ e ++ b) e := by
  unfold containsText
  simp only [String.data_append]
  exact List.infix_append _ _ _

/-- A text contains what stands between a beginning and a two-part end. -/
theorem containsText_middle_two (a e b d : String) : containsText (a ++ e ++ b ++ d) e := by
  unfold containsText
  simp only [String.data_append, List.append_assoc]
  exact List.infix_append' _ _ _

/-- A text contains itself. -/
theorem containsText_refl (e : String) : containsText e e :=
  List.infix_refl _

/-- The call `t.formatSQL()` on a descriptor that renders. -/
theorem DBClient_formatSQL_ok (c : DBClient) (r : Info) (h : formatSQL c.Info = .ok r) :
    c.formatSQL = ({ c with Info := r }, none) := by
  simp [DBClient.formatSQL, h]

/-- The loop of `ToAnySlice` from index `i`: when the first `i` elements of `r` are those
of `s` and `k` indices are left, the result is `s`. -/
theorem toAnyLoop_eq (s : List Value) :
    ∀ (k i : Nat) (r : List Value), i + k = s.length → r.length = s.length →
      (∀ j, j < i → r[j]? = s[j]?) → toAnyLoop s k i r = s := by
  intro k
  induction k with
  | zero =>
    intro i r hik hlen hpre
    simp only [toAnyLoop]
    apply List.ext_getElem? 
    intro j
    by_cases hj : j < i
    · exact hpre j hj
    · have h1 : s.length ≤ j := by omega
      have h2 : r.length ≤ j := by omega
      rw [List.getElem?_eq_none h1, List.getElem?_eq_none h2]
  | succ k ih =>
    intro i r hik hlen hpre
    simp only [toAnyLoop]
    apply ih (i + 1) (r.set i (s.getD i .null)) (by omega) (by simp [hlen])
    intro j hj
    by_cases hji : j = i
    · subst hji
      have hjs : j < s.length := by omega
      have hjr : j < r.length := by omega
      simp [List.getElem?_set, hjr, hjs, List.getD_eq_getElem?_getD]
    · have hlt : j < i := by omega
      rw [List.getElem?_set_ne (Ne.symm hji)]
      exact hpre j hlt

/-- A filter loop that succeeds ran on well-formed filters. -/
theorem filtersOk_of_whereLoop (es : List (String × Value)) :
    ∀ (l : List String) (a : List Value) (r : List String × List Value),
      whereLoop es l a = .ok r → filtersOk es = true := by
  induction es with
  | nil => intro l a r _; rfl
  | cons x es ih =>
    intro l a r h
    obtain ⟨k, v⟩ := x
    simp only [whereLoop] at h
    cases hst : whereStep l a k v with
    | error err => simp [hst] at h
    | ok r1 =>
      obtain ⟨l1, a1⟩ := r1
      simp only [hst] at h
      have hrest := ih l1 a1 r h
      have hk : filterOk (k, v) = true := by
        unfold whereStep at hst
        unfold filterOk
        by_cases hin : stringsToUpper (keyMark (stringsFields k)) = "IN"
        · have hin' : isInKey k = true := by simpa [isInKey, keyOperator] using hin
          simp only [hin, if_true] at hst
          simp only [hin', if_true]
          cases v <;> simp at hst ⊢
        · have hin' : isInKey k = false := by simpa [isInKey, keyOperator] using hin
          simp only [hin, if_false] at hst
          simp only [hin']
          cases hf : stringsFields k with
          | nil => simp [hf] at hst
          | cons col rest => simp
      simp [filtersOk] at hrest ⊢
      exact ⟨hk, hrest⟩

/-- The filter loop fails at a key without tokens when the filters before it are
well-formed. -/
theorem whereLoop_index_panic (pre post : List (String × Value)) (k : String) (v : Value)
    (hpre : filtersOk pre = true) (hk : stringsFields k = []) :
    ∀ (l : List String) (a : List Value),
      whereLoop (pre ++ (k, v) :: post) l a =
        .error (.panic "index out of range [0] with length 0") := by
  induction pre with
  | nil =>
    intro l a
    have heq : ¬ stringsToUpper "=" = "IN" := by decide
    simp [whereLoop, whereStep, hk, keyMark, heq]
  | cons x pre ih =>
    intro l a
    obtain ⟨k1, v1⟩ := x
    have h1 : filterOk (k1, v1) = true := by simp [filtersOk] at hpre; exact hpre.1
    have h2 : filtersOk pre = true := by simp [filtersOk] at hpre ⊢; exact hpre.2
    obtain ⟨⟨l1, a1⟩, hr⟩ := whereStep_ok l a (k1, v1) h1
    simp only [List.cons_append, whereLoop]
    simp only [] at hr
    rw [hr]
    exact ih h2 l1 a1

/-- A SELECT or DELETE renders the same text whatever the payload. -/
theorem render_data_irrelevant (i : Info) (d : Payload)
    (hs : i.sType = SELECT ∨ i.sType = DELETE) : render { i with data := d } = render i := by
  rcases hs with hs | hs
  · by_cases ht : i.table = ""
    · simp [render, formatSQL, ht]
    · have h1 := formatSQL_select i ht hs
      have h2 := formatSQL_select { i with data := d } ht hs
      simp only [render, h1, h2]
      cases whereLoop i.where_ [] [] with
      | error e => rfl
      | ok r => simp [selectCols]
  · by_cases ht : i.table = ""
    · simp [render, formatSQL, ht]
    · have h1 := formatSQL_delete i ht hs
      have h2 := formatSQL_delete { i with data := d } ht hs
      simp only [render, h1, h2]
      cases whereLoop i.where_ [] [] with
      | error e => rfl
      | ok r => rfl

/-- A statement other than SELECT renders the same text whatever the columns and the
distinct flag. -/
theorem render_columns_irrelevant (i : Info) (cs : List String) (b : Bool)
    (hs : i.sType ≠ SELECT) : render { i with columns := cs, distinct := b } = render i := by
  obtain ⟨table, sql, args, sType, data, w, columns, limit, offset, orderBy, distinct⟩ := i
  simp only at hs
  by_cases ht : table = ""
  · simp [render, formatSQL, ht]
  · by_cases h2 : sType = UPDATE
    · subst h2
      cases hl : whereLoop w [] [] <;>
      match data with
      | .ptr p =>
        cases p <;>
          simp [render, formatSQL, ht, Payload.isNil, buildData, finishData, buildWhere_eq, hl]
      | .strMap es =>
        simp [render, formatSQL, ht, Payload.isNil, buildData, finishData, buildWhere_eq, hl]
      | .record fs =>
        simp [render, formatSQL, ht, Payload.isNil, buildData, finishData, buildWhere_eq, hl]
      | .nil => simp [render, formatSQL, ht, Payload.isNil]
      | .otherMap => simp [render, formatSQL, ht, Payload.isNil, buildData]
      | .nilPtr => simp [render, formatSQL, ht, Payload.isNil, buildData]
      | .other => simp [render, formatSQL, ht, Payload.isNil, buildData]
    · by_cases h3 : sType = INSERT
      · subst h3
        match data with
        | .ptr p =>
          cases p <;> simp [render, formatSQL, ht, Payload.isNil, buildData, finishData]
        | .strMap es => simp [render, formatSQL, ht, Payload.isNil, buildData, finishData]
        | .record fs => simp [render, formatSQL, ht, Payload.isNil, buildData, finishData]
        | .nil => simp [render, formatSQL, ht, Payload.isNil]
        | .otherMap => simp [render, formatSQL, ht, Payload.isNil, buildData]
        | .nilPtr => simp [render, formatSQL, ht, Payload.isNil, buildData]
        | .other => simp [render, formatSQL, ht, Payload.isNil, buildData]
      · by_cases h4 : sType = DELETE
        · subst h4
          cases hl : whereLoop w [] [] <;>
            simp [render, formatSQL, ht, buildWhere_eq, hl]
        · simp [render, formatSQL, ht, hs, h2, h3, h4]

/-- The keys of a map after an assignment. -/
theorem mapSet_keys (ob : List (String × Bool)) (col : String) (asc : Bool) :
    (mapSet ob col asc).map Prod.fst =
      if col ∈ ob.map Prod.fst then ob.map Prod.fst else ob.map Prod.fst ++ [col] := by
  induction ob with
  | nil => simp [mapSet]
  | cons e ob ih =>
    obtain ⟨k, v⟩ := e
    by_cases hk : k = col
    · simp [mapSet, hk]
    · have hk' : ¬ col = k := fun h => hk h.symm
      simp only [mapSet, hk, if_false, List.map_cons, ih, List.mem_cons, hk', false_or]
      split <;> simp

/-- An assignment keeps the keys of a map distinct. -/
theorem mapSet_nodup (ob : List (String × Bool)) (col : String) (asc : Bool)
    (h : (ob.map Prod.fst).Nodup) : ((mapSet ob col asc).map Prod.fst).Nodup := by
  rw [mapSet_keys]
  split
  · exact h
  · rename_i hc
    rw [List.nodup_append]
    refine ⟨h, by simp, ?_⟩
    intro a ha hb
    simp at hb
    subst hb
    exact hc ha

/-- The entries of a map with distinct keys after an assignment. -/
theorem mem_mapSet (ob : List (String × Bool)) (col : String) (asc : Bool)
    (h : (ob.map Prod.fst).Nodup) (k : String) (b : Bool) :
    (k, b) ∈ mapSet ob col asc ↔ (k = col ∧ b = asc) ∨ (k ≠ col ∧ (k, b) ∈ ob) := by
  induction ob with
  | nil => simp [mapSet]
  | cons e ob ih =>
    obtain ⟨k0, v0⟩ := e
    simp only [List.map_cons, List.nodup_cons] at h
    obtain ⟨hnot, hnd⟩ := h
    by_cases hk : k0 = col
    · subst hk
      simp only [mapSet, if_true, List.mem_cons, Prod.mk.injEq]
      constructor
      · rintro (⟨h1, h2⟩ | h1)
        · exact Or.inl ⟨h1, h2⟩
        · right
          refine ⟨?_, Or.inr h1⟩
          intro hkk
          subst hkk
          exact hnot (List.mem_map.mpr ⟨(k, b), h1, rfl⟩)
      · rintro (⟨h1, h2⟩ | ⟨h1, h2⟩)
        · exact Or.inl ⟨h1, h2⟩
        · rcases h2 with ⟨h3, _⟩ | h3
          · exact absurd h3 h1
          · exact Or.inr h3
    · simp only [mapSet, hk, if_false, List.mem_cons, Prod.mk.injEq, ih hnd]
      constructor
      · rintro (⟨h1, h2⟩ | h1 | ⟨h1, h2⟩)
        · right
          exact ⟨by rw [h1]; exact hk, Or.inl ⟨h1, h2⟩⟩
        · exact Or.inl h1
        · exact Or.inr ⟨h1, Or.inr h2⟩
      · rintro (h1 | ⟨h1, h2 | h2⟩)
        · exact Or.inr (Or.inl h1)
        · exact Or.inl h2
        · exact Or.inr (Or.inr ⟨h1, h2⟩)

/-- The last flag of a column after one more call. -/
theorem lastFlag_append (calls : List (String × Bool)) (c : String × Bool) (col : String) :
    lastFlag (calls ++ [c]) col = if c.1 = col then some c.2 else lastFlag calls col := by
  unfold lastFlag
  simp only [List.reverse_append, List.reverse_cons, List.reverse_nil, List.nil_append,
    List.singleton_append, List.find?_cons]
  by_cases h : c.1 = col
  · have hb : (c.1 == col) = true := by simpa using h
    simp [hb, h]
  · have hb : (c.1 == col) = false := by simpa using h
    simp [hb, h]

/-- The descriptor after one more `OrderBy` call. -/
theorem applyOrderBy_append (i : Info) (calls : List (String × Bool)) (c : String × Bool) :
    applyOrderBy i (calls ++ [c]) = OrderBy (applyOrderBy i calls) c.1 c.2 := by
  simp [applyOrderBy, List.foldl_append]

/-- After a sequence of `OrderBy` calls on an empty map, the map has one entry per column
passed, with the flag of the last call for it. -/
theorem applyOrderBy_entries (i0 : Info) (h0 : i0.orderBy = []) (calls : List (String × Bool)) :
    ((applyOrderBy i0 calls).orderBy.map Prod.fst).Nodup ∧
    ∀ col b, (col, b) ∈ (applyOrderBy i0 calls).orderBy ↔ lastFlag calls col = some b := by
  induction calls using List.reverseRecOn with
  | nil => simp [applyOrderBy, h0, lastFlag]
  | append_singleton calls c ih =>
    obtain ⟨hnd, hmem⟩ := ih
    rw [applyOrderBy_append]
    refine ⟨mapSet_nodup _ _ _ hnd, ?_⟩
    intro col b
    simp only [OrderBy]
    rw [mem_mapSet _ _ _ hnd, lastFlag_append, hmem]
    by_cases hc : c.1 = col
    · rw [if_pos hc]
      constructor
      · rintro (⟨_, h2⟩ | ⟨h1, _⟩)
        · rw [h2]
        · exact absurd hc.symm h1
      · intro h
        exact Or.inl ⟨hc.symm, (Option.some.inj h).symm⟩
    · have hc' : col ≠ c.1 := fun h => hc h.symm
      rw [if_neg hc]
      constructor
      · rintro (⟨h1, _⟩ | ⟨_, h2⟩)
        · exact absurd h1 hc'
        · exact h2
      · intro h
        exact Or.inr ⟨hc', h⟩

/-! ## The claims on execution, kind calls, sort keys and filter keys -/

/-- C11: `formatSQL` returns the error `table name empty` exactly when the table is empty,
the error `insert/update no data` exactly when the table is not empty, the kind is INSERT or
UPDATE and the payload is nil, and an error at all exactly when the table is empty or the
kind is INSERT or UPDATE with a nil payload (a panic is not a returned error); when it
returns an error the client, and with it `sql` and `args`, is as it was before the call. -/
theorem formatSQL_error_iff (i : Info) :
    (formatSQL i = .error (.error "table name empty") ↔ i.table = "") ∧
    (formatSQL i = .error (.error "insert/update no data") ↔
      (i.table ≠ "" ∧ (i.sType = INSERT ∨ i.sType = UPDATE) ∧ i.data.isNil = true)) ∧
    ((∃ m, formatSQL i = .error (.error m)) ↔
      (i.table = "" ∨ ((i.sType = INSERT ∨ i.sType = UPDATE) ∧ i.data.isNil = true))) ∧
    (∀ (c : DBClient) (m : String), c.Info = i → formatSQL i = .error (.error m) →
      c.formatSQL = (c, some (.error m)) ∧ c.formatSQL.1.Info.sql = i.sql ∧
      c.formatSQL.1.Info.args = i.args) := by
  have hempty : i.table = "" → formatSQL i = .error (.error "table name empty") := by
    intro h; simp [formatSQL, h]
  have hnodata : i.table ≠ "" → (i.sType = INSERT ∨ i.sType = UPDATE) → i.data.isNil = true →
      formatSQL i = .error (.error "insert/update no data") := by
    intro h1 h2 h3
    rcases h2 with h2 | h2 <;> simp [formatSQL, h1, h2, h3]
  have hother : i.table ≠ "" → ¬ ((i.sType = INSERT ∨ i.sType = UPDATE) ∧ i.data.isNil = true) →
      ∀ m, formatSQL i ≠ .error (.error m) := by
    intro h1 h2 m h
    obtain ⟨m', hm⟩ := formatSQL_error_panic i h1 h2 _ h
    cases hm
  refine ⟨⟨?_, hempty⟩, ⟨?_, fun h => hnodata h.1 h.2.1 h.2.2⟩, ⟨?_, ?_⟩, ?_⟩
  · intro h
    by_contra ht
    by_cases hd : (i.sType = INSERT ∨ i.sType = UPDATE) ∧ i.data.isNil = true
    · rw [hnodata ht hd.1 hd.2] at h
      simp at h
    · exact hother ht hd _ h
  · intro h
    by_cases ht : i.table = ""
    · rw [hempty ht] at h
      simp at h
    · by_cases hd : (i.sType = INSERT ∨ i.sType = UPDATE) ∧ i.data.isNil = true
      · exact ⟨ht, hd.1, hd.2⟩
      · exact absurd h (hother ht hd _)
  · rintro ⟨m, h⟩
    by_cases ht : i.table = ""
    · exact Or.inl ht
    · by_cases hd : (i.sType = INSERT ∨ i.sType = UPDATE) ∧ i.data.isNil = true
      · exact Or.inr hd
      · exact absurd h (hother ht hd _)
  · rintro (h | h)
    · exact ⟨_, hempty h⟩
    · by_cases ht : i.table = ""
      · exact ⟨_, hempty ht⟩
      · exact ⟨_, hnodata ht h.1 h.2⟩
  · intro c m hc h
    subst hc
    simp [DBClient.formatSQL, h]

/-- C12: `Do` on a descriptor of kind SELECT returns the count 0 with the usage error
`should not select sqlz` and makes no call on the connection or the transaction; `All` on a
descriptor of any other kind returns the nil slice with the usage error `not select sqlz`
and makes no call either. -/
theorem wrong_kind_no_database_call (ex : Executor) (c : DBClient) (result : Option Nat) :
    (c.Info.sType = SELECT →
      (Do ex c).outcome = .returned (0, some "should not select sqlz") ∧ (Do ex c).calls = []) ∧
    (c.Info.sType ≠ SELECT →
      (All ex c result).outcome = .returned (none, some "not select sqlz") ∧
      (All ex c result).calls = []) := by
  constructor
  · intro h
    simp [Do, doBody, h]
  · intro h
    simp [All, allBody, h]

/-- C13: whatever the executor does and however the call ends, the client after `Do`, `All`
or `First` holds the empty descriptor (table empty, kind unset, payload nil, no filters, no
columns, distinct false, limit 0, offset 0, no sort key, empty `sql` and `args`) and the
same connection, transaction and auto-rollback flag as before. -/
theorem descriptor_cleared_after_execution (ex : Executor) (c : DBClient)
    (result : Option Nat) :
    (Do ex c).client = { c with Info := {} } ∧
    (All ex c result).client = { c with Info := {} } ∧
    (First ex c result).client = { c with Info := {} } ∧
    ({} : Info) = { table := "", sql := "", args := [], sType := 0, data := Payload.nil,
                    where_ := [], columns := [], limit := 0, offset := 0, orderBy := [],
                    distinct := false } := by
  have hAll : ∀ (c : DBClient) (result : Option Nat),
      (All ex c result).client = { c with Info := {} } := by
    intro c result
    show clear (allBody ex c result).client = clear c
    exact clear_allBody ex c result
  refine ⟨?_, hAll c result, ?_, rfl⟩
  · show clear (doBody ex c).client = clear c
    exact clear_doBody ex c
  · have h := hAll { c with Info := { c.Info with limit := 1 } } none
    unfold First
    simp only
    split
    · exact h
    · exact h
    · split
      · exact h
      · split <;> exact h

/-- C14 (counterexample): on table `t`, `Select(["a"], true)` followed by `Select(nil,
false)` renders the column `a` of the first call, while `Select(nil, false)` alone renders
`*`. -/
theorem select_after_select_keeps_columns :
    render (applyKind (applyKind (Table {} "t") (.select ["a"] true)) (.select [] false)) =
      .ok ("SELECT `a` FROM `t`", []) ∧
    render (applyKind (Table {} "t") (.select [] false)) = .ok ("SELECT * FROM `t`", []) :=
  ⟨rfl, rfl⟩

/-- C14 (amended): for every descriptor and every two kind-setting calls, except a `Select`
with columns followed by a `Select` without, the text and arguments rendered after both
calls are those rendered after the second call alone, and the kind is that of the second
call. -/
theorem last_kind_call_wins (i0 : Info) (k1 k2 : KindCall) (h : keepsColumns k1 k2 = false) :
    render (applyKind (applyKind i0 k1) k2) = render (applyKind i0 k2) ∧
    (applyKind (applyKind i0 k1) k2).sType = (applyKind i0 k2).sType := by
  have hsel : ∀ (j : Info) cs d, (Select j cs d).sType = SELECT := by
    intro j cs d; cases cs <;> simp [Select]
  cases k2 with
  | select cs2 d2 =>
    refine ⟨?_, by simp only [applyKind, hsel]⟩
    cases k1 with
    | select cs1 d1 =>
      cases cs1 with
      | nil => cases cs2 <;> simp [applyKind, Select, Insert, Update, Delete]
      | cons c1 cs1 =>
        cases cs2 with
        | nil => simp [keepsColumns] at h
        | cons c2 cs2 => simp [applyKind, Select]
    | insert d =>
      have e : applyKind (applyKind i0 (.insert d)) (.select cs2 d2) =
          { applyKind i0 (.select cs2 d2) with data := d } := by cases cs2 <;> simp [applyKind, Select, Insert, Update, Delete]
      rw [e]
      exact render_data_irrelevant _ d (Or.inl (hsel _ _ _))
    | update d =>
      have e : applyKind (applyKind i0 (.update d)) (.select cs2 d2) =
          { applyKind i0 (.select cs2 d2) with data := d } := by cases cs2 <;> simp [applyKind, Select, Insert, Update, Delete]
      rw [e]
      exact render_data_irrelevant _ d (Or.inl (hsel _ _ _))
    | delete => cases cs2 <;> simp [applyKind, Select, Insert, Update, Delete]
  | insert d2 =>
    refine ⟨?_, by cases k1 <;> rfl⟩
    cases k1 with
    | select cs1 d1 =>
      have e : applyKind (applyKind i0 (.select cs1 d1)) (.insert d2) =
          { applyKind i0 (.insert d2) with
            columns := (Select i0 cs1 d1).columns, distinct := (Select i0 cs1 d1).distinct } := by
        cases cs1 <;> simp [applyKind, Select, Insert, Update, Delete]
      rw [e]
      exact render_columns_irrelevant _ _ _ (by simp [applyKind, Insert, Update, Delete])
    | insert d => rfl
    | update d => rfl
    | delete => rfl
  | update d2 =>
    refine ⟨?_, by cases k1 <;> rfl⟩
    cases k1 with
    | select cs1 d1 =>
      have e : applyKind (applyKind i0 (.select cs1 d1)) (.update d2) =
          { applyKind i0 (.update d2) with
            columns := (Select i0 cs1 d1).columns, distinct := (Select i0 cs1 d1).distinct } := by
        cases cs1 <;> simp [applyKind, Select, Insert, Update, Delete]
      rw [e]
      exact render_columns_irrelevant _ _ _ (by simp [applyKind, Insert, Update, Delete])
    | insert d => rfl
    | update d => rfl
    | delete => rfl
  | delete =>
    refine ⟨?_, by cases k1 <;> rfl⟩
    cases k1 with
    | select cs1 d1 =>
      have e : applyKind (applyKind i0 (.select cs1 d1)) .delete =
          { applyKind i0 .delete with
            columns := (Select i0 cs1 d1).columns, distinct := (Select i0 cs1 d1).distinct } := by
        cases cs1 <;> simp [applyKind, Select, Insert, Update, Delete]
      rw [e]
      exact render_columns_irrelevant _ _ _ (by simp [applyKind, Insert, Update, Delete])
    | insert d =>
      exact render_data_irrelevant (applyKind i0 .delete) d (Or.inr rfl)
    | update d =>
      exact render_data_irrelevant (applyKind i0 .delete) d (Or.inr rfl)
    | delete => rfl

/-- C14 (witness): `Insert` of a mapping followed by `Select(["a", "b"], true)` on table
`t`. -/
theorem last_kind_call_wins_witness :
    keepsColumns (.insert (.strMap [("a", Value.int 1)])) (.select ["a", "b"] true) = false ∧
    render (applyKind (applyKind (Table {} "t") (.insert (.strMap [("a", Value.int 1)])))
              (.select ["a", "b"] true)) =
      render (applyKind (Table {} "t") (.select ["a", "b"] true)) ∧
    render (applyKind (Table {} "t") (.select ["a", "b"] true)) =
      .ok ("SELECT DISTINCT `a`,`b` FROM `t`", []) :=
  ⟨rfl, (last_kind_call_wins (Table {} "t") (.insert (.strMap [("a", Value.int 1)]))
          (.select ["a", "b"] true) rfl).1, rfl⟩

/-- C15: after a sequence of `OrderBy(col, asc)` calls on a builder with no sort key, in
whatever order the resulting map is visited, the map has exactly one entry per column
passed, holding the flag of the last call for that column; a rendered SELECT writes no ORDER
BY clause when there was no call, and otherwise ` ORDER BY ` followed by the entries, each
the quoted column with `ASC` for a true flag and `DESC` for a false one, joined with `,`. -/
theorem orderBy_accumulates (i0 : Info) (calls : List (String × Bool)) (j : Info)
    (h0 : i0.orderBy = []) (hp : j.orderBy.Perm (applyOrderBy i0 calls).orderBy)
    (hs : j.sType = SELECT) (ht : j.table ≠ "") (hw : filtersOk j.where_ = true) :
    (j.orderBy.map Prod.fst).Nodup ∧
    (∀ col b, (col, b) ∈ j.orderBy ↔ lastFlag calls col = some b) ∧
    ∃ r list, formatSQL j = .ok r ∧
      r.sql = j.sql ++ ("SELECT " ++ selectCols j ++ " FROM `" ++ j.table ++ "`") ++
        (whereClause j.where_ list ++
          (if calls.isEmpty then ""
           else " ORDER BY " ++
            stringsJoin
              (j.orderBy.map (fun e => "`" ++ e.1 ++ "` " ++ (if e.2 then "ASC" else "DESC")))
              ",") ++
          limitClause j.limit j.offset) := by
  obtain ⟨hnd, hmem⟩ := applyOrderBy_entries i0 h0 calls
  refine ⟨?_, ?_, ?_⟩
  · exact ((hp.map Prod.fst).nodup_iff).mpr hnd
  · intro col b
    rw [hp.mem_iff]
    exact hmem col b
  · obtain ⟨⟨list, vals⟩, hloop⟩ := whereLoop_ok j.where_ hw [] []
    have hf := formatSQL_select j ht hs
    simp only [hloop] at hf
    refine ⟨_, list, hf, ?_⟩
    have hob : orderByClause j.orderBy =
        (if calls.isEmpty then ""
         else " ORDER BY " ++
          stringsJoin
            (j.orderBy.map (fun e => "`" ++ e.1 ++ "` " ++ (if e.2 then "ASC" else "DESC")))
            ",") := by
      cases calls with
      | nil =>
        have : j.orderBy = [] := by
          have h1 : (applyOrderBy i0 []).orderBy = [] := h0
          rw [h1] at hp
          exact hp.eq_nil
        simp [this, orderByClause]
      | cons c cs =>
        have hne : j.orderBy ≠ [] := by
          intro hnil
          have hlast : ∃ col b, lastFlag (c :: cs) col = some b := by
            rcases List.eq_nil_or_concat (c :: cs) with h | ⟨pre, x, h⟩
            · cases h
            · refine ⟨x.1, x.2, ?_⟩
              rw [h, List.concat_eq_append, lastFlag_append, if_pos rfl]
          obtain ⟨col, b, hl⟩ := hlast
          have := (hmem col b).mpr hl
          rw [← hp.mem_iff, hnil] at this
          cases this
        have hemp : j.orderBy.isEmpty = false := by
          cases hj : j.orderBy with
          | nil => exact absurd hj hne
          | cons _ _ => rfl
        simp only [orderByClause, hemp, List.isEmpty_cons]
        rfl
    rw [← hob]

/-- C15 (witness): the calls `OrderBy("a", true)`, `OrderBy("b", false)`, `OrderBy("a",
false)` leave the entries `a` descending and `b` descending. -/
theorem orderBy_accumulates_witness :
    (Select (Table {} "t") [] false).orderBy = [] ∧
    orderedSelect.orderBy.Perm
      (applyOrderBy (Select (Table {} "t") [] false)
        [("a", true), ("b", false), ("a", false)]).orderBy ∧
    orderedSelect.sType = SELECT ∧ orderedSelect.table ≠ "" ∧
    filtersOk orderedSelect.where_ = true ∧
    (orderedSelect.orderBy.map Prod.fst).Nodup ∧
    (∀ col b, (col, b) ∈ orderedSelect.orderBy ↔
      lastFlag [("a", true), ("b", false), ("a", false)] col = some b) ∧
    render orderedSelect = .ok ("SELECT * FROM `t` ORDER BY `a` DESC,`b` DESC", []) := by
  have h := orderBy_accumulates (Select (Table {} "t") [] false)
    [("a", true), ("b", false), ("a", false)] orderedSelect rfl (List.Perm.refl _) rfl
    (by decide) rfl
  exact ⟨rfl, List.Perm.refl _, rfl, by decide, rfl, h.1, h.2.1, rfl⟩

/-- C16 (counterexample): the key `age NOT IN` has three tokens and its operator is `=`, not
the second token `NOT`: the filter renders `` `age` = ? ``. -/
theorem three_token_key_operator :
    stringsFields "age NOT IN" = ["age", "NOT", "IN"] ∧
    keyMark (stringsFields "age NOT IN") = "=" ∧
    whereStep [] [] "age NOT IN" (Value.int 5) = .ok (["`age` = ?"], [Value.int 5]) ∧
    render threeTokenKey = .ok ("SELECT * FROM `t` WHERE `age` = ?", [Value.int 5]) :=
  ⟨by decide, by decide, rfl, rfl⟩

/-- C16 (amended): the column of a filter key is its first token; the operator is the second
token when the key has exactly two tokens, and `=` when it has one token or three and more.
-/
theorem filter_key_split (k : String) (v : Value) (l : List String) (a : List Value) :
    (∀ c, stringsFields k = [c] →
      keyMark (stringsFields k) = "=" ∧
      whereStep l a k v = .ok (l ++ ["`" ++ c ++ "` = ?"], a ++ [v])) ∧
    (∀ c op, stringsFields k = [c, op] →
      keyMark (stringsFields k) = op ∧
      (stringsToUpper op ≠ "IN" →
        whereStep l a k v = .ok (l ++ ["`" ++ c ++ "` " ++ op ++ " ?"], a ++ [v]))) ∧
    (∀ c t2 t3 rest, stringsFields k = c :: t2 :: t3 :: rest →
      keyMark (stringsFields k) = "=" ∧
      whereStep l a k v = .ok (l ++ ["`" ++ c ++ "` = ?"], a ++ [v])) := by
  have heq : ¬ stringsToUpper "=" = "IN" := by decide
  refine ⟨?_, ?_, ?_⟩
  · intro c h
    refine ⟨by rw [h]; rfl, ?_⟩
    simp [whereStep, h, keyMark, heq]
    apply String.ext; simp
  · intro c op h
    refine ⟨by rw [h]; rfl, ?_⟩
    intro hin
    simp [whereStep, h, keyMark, hin]
  · intro c t2 t3 rest h
    refine ⟨by rw [h]; rfl, ?_⟩
    simp [whereStep, h, keyMark, heq]
    apply String.ext; simp

/-- C17: `Do` on a descriptor that is not a SELECT and renders to `r` calls `Exec` once with
the rendered text and arguments, on the transaction when there is one and on the connection
otherwise; when the `Exec` of the transaction fails, `Rollback` is called exactly when the
auto-rollback flag is set, and `Do` returns 0 with an error that contains the text of the
execution error and, when the rollback failed, the text of the rollback error; when the
`Exec` of the connection fails `Do` returns 0 with an error that contains its text; on
success `Do` returns the number of affected rows and no error. -/
theorem do_executes_once (ex : Executor) (c : DBClient) (r : Info)
    (hs : c.Info.sType ≠ SELECT) (hr : formatSQL c.Info = .ok r) :
    (∀ h num, c.Tx = some h → ex.txExec r.sql r.args = .ok num →
      (Do ex c).calls = [.txExec r.sql r.args] ∧ (Do ex c).outcome = .returned (num, none)) ∧
    (∀ h err, c.Tx = some h → ex.txExec r.sql r.args = .error err →
      (Do ex c).calls =
        .txExec r.sql r.args :: (if c.AutoRollback then [.txRollback] else []) ∧
      ∃ msg, (Do ex c).outcome = .returned (0, some msg) ∧ containsText msg err ∧
        ∀ rerr, c.AutoRollback = true → ex.txRollback = some rerr → containsText msg rerr) ∧
    (∀ num, c.Tx = none → ex.dbExec r.sql r.args = .ok num →
      (Do ex c).calls = [.dbExec r.sql r.args] ∧ (Do ex c).outcome = .returned (num, none)) ∧
    (∀ err, c.Tx = none → ex.dbExec r.sql r.args = .error err →
      (Do ex c).calls = [.dbExec r.sql r.args] ∧
      ∃ msg, (Do ex c).outcome = .returned (0, some msg) ∧ containsText msg err) := by
  have hf := DBClient_formatSQL_ok c r hr
  refine ⟨?_, ?_, ?_, ?_⟩
  · intro h num htx hex
    simp [Do, doBody, hs, hf, htx, hex]
  · intro h err htx hex
    cases har : c.AutoRollback with
    | false =>
      simp only [Do, doBody, hs, hf, htx, hex, har, if_false]
      refine ⟨by simp, _, rfl, containsText_append_right _ _, ?_⟩
      intro rerr h1
      cases h1
    | true =>
      cases hrb : ex.txRollback with
      | none =>
        simp only [Do, doBody, hs, hf, htx, hex, har, hrb, if_false, if_true]
        refine ⟨by simp, _, rfl, containsText_append_right _ _, ?_⟩
        intro rerr _ h2
        cases h2
      | some rerr0 =>
        simp only [Do, doBody, hs, hf, htx, hex, har, hrb, if_false, if_true]
        refine ⟨by simp, _, rfl, containsText_middle_two _ _ _ _, ?_⟩
        intro rerr _ h2
        cases h2
        exact containsText_append_right _ _
  · intro num htx hex
    simp [Do, doBody, hs, hf, htx, hex]
  · intro err htx hex
    simp only [Do, doBody, hs, hf, htx, hex, if_false]
    exact ⟨by simp, _, rfl, containsText_refl _⟩

/-- C17 (witness): `Table("t").Delete()` in a transaction with auto-rollback, on an executor
that succeeds and on one whose `Exec` and `Rollback` fail. -/
theorem do_executes_once_witness :
    deleteInTx.Info.sType ≠ SELECT ∧
    formatSQL deleteInTx.Info = .ok { deleteInTx.Info with sql := "DELETE FROM `t`" } ∧
    (Do failingExecutor deleteInTx).calls = [.txExec "DELETE FROM `t`" [], .txRollback] ∧
    (Do failingExecutor deleteInTx).outcome =
      .returned (0, some "exec error: boom, and rollback err: lost") ∧
    (Do okExecutor deleteInTx).calls = [.txExec "DELETE FROM `t`" []] ∧
    (Do okExecutor deleteInTx).outcome = .returned (3, none) := by
  have h := do_executes_once okExecutor deleteInTx
    { deleteInTx.Info with sql := "DELETE FROM `t`" } (by decide) rfl
  have h2 := h.1 2 3 rfl rfl
  exact ⟨by decide, rfl, rfl, rfl, h2.1, h2.2⟩

/-- C18: `ToAnySlice` of a non-nil slice returns a slice of the same length with the same
element at every index; of a nil slice it returns nil; of a value that is not a slice it
panics. -/
theorem ToAnySlice_preserves (s : List Value) :
    ToAnySlice (.slice s) = .ok (some s) ∧
    (∃ r, ToAnySlice (.slice s) = .ok (some r) ∧ r.length = s.length ∧
      ∀ i : Nat, r[i]? = s[i]?) ∧
    ToAnySlice .nilSlice = .ok none ∧
    ToAnySlice .notSlice = .error (.panic "Given a non-slice type") := by
  have h : ToAnySlice (.slice s) = .ok (some s) := by
    simp only [ToAnySlice]
    rw [toAnyLoop_eq s s.length 0 _ (by omega) (by simp) (by intro j hj; omega)]
  exact ⟨h, ⟨s, h, rfl, fun _ => rfl⟩, rfl, rfl⟩

/-- C19 (counterexample): the filter `id IN` with a `[]int` value has a key with tokens and
a sequence under IN, yet `buildWhere` panics on the type assertion to `[]interface{}`. -/
theorem in_typed_slice_panics :
    tokensAndSequences inTypedSlice.where_ = true ∧
    buildWhere inTypedSlice =
      .error (.panic "interface conversion: value is not a []interface") :=
  ⟨by decide, rfl⟩

/-- C19 (amended): `buildWhere` completes exactly when every filter key has at least one
token and every value under an IN operator is a `[]interface{}`; with a key without tokens
in the mapping it panics, and it does so on indexing the first token when the filters
visited before that key are well-formed. -/
theorem buildWhere_fault_free_iff (i : Info) :
    ((∃ r, buildWhere i = .ok r) ↔
      ∀ e ∈ i.where_, stringsFields e.1 ≠ [] ∧ (isInKey e.1 = true → ∃ xs, e.2 = .seq xs)) ∧
    (∀ k v, (k, v) ∈ i.where_ → stringsFields k = [] → ∃ m, buildWhere i = .error (.panic m)) ∧
    (∀ pre k v post, i.where_ = pre ++ (k, v) :: post → filtersOk pre = true →
      stringsFields k = [] →
      buildWhere i = .error (.panic "index out of range [0] with length 0")) := by
  have hiff : filtersOk i.where_ = true ↔
      ∀ e ∈ i.where_, stringsFields e.1 ≠ [] ∧ (isInKey e.1 = true → ∃ xs, e.2 = .seq xs) := by
    unfold filtersOk
    rw [List.all_eq_true]
    constructor
    · intro h e he
      have := h e he
      unfold filterOk at this
      by_cases hin : isInKey e.1 = true
      · simp only [hin, if_true] at this
        refine ⟨?_, fun _ => ?_⟩
        · intro hf
          simp [isInKey, keyOperator, hf, keyMark] at hin
          exact absurd hin (by decide)
        · cases hv : e.2 <;> simp [hv] at this
          exact ⟨_, rfl⟩
      · have hin' : isInKey e.1 = false := by simpa using hin
        simp only [hin'] at this
        refine ⟨by simpa using this, fun h => ?_⟩
        rw [hin'] at h
        cases h
    · intro h e he
      obtain ⟨h1, h2⟩ := h e he
      unfold filterOk
      by_cases hin : isInKey e.1 = true
      · obtain ⟨xs, hxs⟩ := h2 hin
        simp [hin, hxs]
      · have hin' : isInKey e.1 = false := by simpa using hin
        simp [hin', h1]
  have hok : (∃ r, buildWhere i = .ok r) ↔ filtersOk i.where_ = true := by
    rw [buildWhere_eq]
    constructor
    · rintro ⟨r, h⟩
      cases hl : whereLoop i.where_ [] [] with
      | error err => simp [hl] at h
      | ok r1 => exact filtersOk_of_whereLoop _ _ _ _ hl
    · intro h
      obtain ⟨⟨l, a⟩, hl⟩ := whereLoop_ok i.where_ h [] []
      exact ⟨_, by simp only [hl]; rfl⟩
  refine ⟨hok.trans hiff, ?_, ?_⟩
  · intro k v hmem hk
    cases hb : buildWhere i with
    | ok r =>
      have hall := hiff.mp (hok.mp ⟨r, hb⟩)
      exact absurd hk (hall (k, v) hmem).1
    | error e =>
      obtain ⟨m, hm⟩ := buildWhere_error_panic i e hb
      exact ⟨m, by rw [hm]⟩
  · intro pre k v post hw hpre hk
    rw [buildWhere_eq, hw, whereLoop_index_panic pre post k v hpre hk]

/-- C20: on a builder with a non-empty table and no statement kind (and, as on every builder
between two executions, empty `sql` and `args`), `formatSQL` returns no error and changes
nothing, and `Do` calls `Exec` once with the empty text and no arguments, on the transaction
when there is one and on the connection otherwise; its outcome is that of the execution, not
a usage or render error. -/
theorem do_without_kind (ex : Executor) (c : DBClient) (ht : c.Info.table ≠ "")
    (hs : c.Info.sType = 0) (hsql : c.Info.sql = "") (hargs : c.Info.args = []) :
    formatSQL c.Info = .ok c.Info ∧ c.formatSQL = (c, none) ∧
    (∀ h num, c.Tx = some h → ex.txExec "" [] = .ok num →
      (Do ex c).calls = [.txExec "" []] ∧ (Do ex c).outcome = .returned (num, none)) ∧
    (∀ h err, c.Tx = some h → ex.txExec "" [] = .error err →
      (Do ex c).calls = .txExec "" [] :: (if c.AutoRollback then [.txRollback] else []) ∧
      ∃ msg, (Do ex c).outcome = .returned (0, some msg) ∧ containsText msg err) ∧
    (∀ num, c.Tx = none → ex.dbExec "" [] = .ok num →
      (Do ex c).calls = [.dbExec "" []] ∧ (Do ex c).outcome = .returned (num, none)) ∧
    (∀ err, c.Tx = none → ex.dbExec "" [] = .error err →
      (Do ex c).calls = [.dbExec "" []] ∧ (Do ex c).outcome = .returned (0, some err)) := by
  have hf : formatSQL c.Info = .ok c.Info := by
    simp [formatSQL, ht, hs]
  have hsel : c.Info.sType ≠ SELECT := by rw [hs]; decide
  have hfc : c.formatSQL = (c, none) := by
    simp [DBClient.formatSQL, hf]
  refine ⟨hf, hfc, ?_, ?_, ?_, ?_⟩
  · intro h num htx hex
    simp [Do, doBody, hsel, hfc, htx, hsql, hargs, hex]
  · intro h err htx hex
    cases har : c.AutoRollback with
    | false =>
      simp only [Do, doBody, hsel, hfc, htx, hsql, hargs, hex, har, if_false]
      exact ⟨by simp, _, rfl, containsText_append_right _ _⟩
    | true =>
      cases hrb : ex.txRollback with
      | none =>
        simp only [Do, doBody, hsel, hfc, htx, hsql, hargs, hex, har, hrb, if_false, if_true]
        exact ⟨by simp, _, rfl, containsText_append_right _ _⟩
      | some rerr0 =>
        simp only [Do, doBody, hsel, hfc, htx, hsql, hargs, hex, har, hrb, if_false, if_true]
        exact ⟨by simp, _, rfl, containsText_middle_two _ _ _ _⟩
  · intro num htx hex
    simp [Do, doBody, hsel, hfc, htx, hsql, hargs, hex]
  · intro err htx hex
    simp [Do, doBody, hsel, hfc, htx, hsql, hargs, hex]

/-- C20 (witness): the client holding only `Table("t")`, on an executor that succeeds. -/
theorem do_without_kind_witness :
    tableOnly.Info.table ≠ "" ∧ tableOnly.Info.sType = 0 ∧ tableOnly.Info.sql = "" ∧
    tableOnly.Info.args = [] ∧
    formatSQL tableOnly.Info = .ok tableOnly.Info ∧
    (Do okExecutor tableOnly).calls = [.dbExec "" []] ∧
    (Do okExecutor tableOnly).outcome = .returned (3, none) := by
  have h := do_without_kind okExecutor tableOnly (by decide) rfl rfl rfl
  have h2 := h.2.2.2.2.1 3 rfl rfl
  exact ⟨by decide, rfl, rfl, rfl, h.1, h2.1, h2.2⟩

end Sqlz
